import Mathlib

/-!
Shallow embedding of the orchestration logic of `qiskit/_quantumprogram.py`
(class `QuantumProgram`) and of `_remove_identity` from
`qiskit/algorithms/phase_estimators/hamiltonian_phase_estimation.py`.

Python dictionaries are modelled as insertion-ordered association lists;
a missing-key access raises `KeyError`, modelled by an explicit exception
value.  External collaborators (unroller, mapper, simulators, the remote
API client, the `random` module) are modelled as abstract functions
supplied in a `Collab` / `Api` bundle.  Machine reals (`float`) are
modelled by `ℚ`.

The file has two parts: first all definitions, then all theorems.
-/

namespace QP

/-- Insertion-ordered dictionary lookup (Python `d[k]` success case /
`k in d`). -/
def alookup {α : Type} : List (String × α) → String → Option α
  | [], _ => none
  | (k, v) :: rest, key => if k = key then some v else alookup rest key

/-- Python `d[k] = v`: overwrite in place if the key exists, else append
(insertion order preserved). -/
def ainsert {α : Type} : List (String × α) → String → α → List (String × α)
  | [], key, v => [(key, v)]
  | (k, w) :: rest, key, v =>
      if k = key then (k, v) :: rest else (k, w) :: ainsert rest key v

/-- Exceptions that the embedded Python code can raise. -/
inductive Exc
  | keyError
  | typeError
  | assertionError
  | indexError
  | zeroDivisionError
  | engine (msg : String)
deriving DecidableEq, Repr

/-- A counts table: bitstring keys mapped to (rational) counts. -/
abbrev CountsTable : Type := List (String × ℚ)

/-- The `data` section of a result payload (`result["data"]`); each field
models the presence or absence of the corresponding dictionary key. -/
structure DataSection where
  counts : Option CountsTable
  classical_state : Option Nat
deriving DecidableEq

/-- A `result` payload (`{"data": ..., ...}`); `data = none` models a
dictionary without a `"data"` key. -/
structure ResultData where
  data : Option DataSection
deriving DecidableEq

/-- One entry of a `job_result["qasms"]` list: `{"result": ..., "status": ...}`;
`result = none` models Python `None`. -/
structure QasmResult where
  result : Option ResultData
  status : String
deriving DecidableEq

/-- A job-status payload returned by the remote API's `get_job`
(`{"status": ..., "qasms": [...]}`). -/
structure JobPayload where
  status : String
  qasms : List QasmResult
deriving DecidableEq

/-! ### Python `bin`, `str.zfill`, and `collections.Counter` -/

/-- Binary digits of `n`, most significant first; empty for `0`
(helper for Python `bin`). -/
def binDigs (n : Nat) : List Char :=
  if h : n = 0 then []
  else binDigs (n / 2) ++ [if n % 2 = 1 then '1' else '0']
decreasing_by exact Nat.div_lt_self (Nat.pos_of_ne_zero h) (by decide)

/-- Python `bin(n)[2:]` for `n ≥ 0`. -/
def pyBin (n : Nat) : String :=
  if n = 0 then "0" else String.mk (binDigs n)

/-- Python `s.zfill(w)` for strings without a sign character. -/
def zfill (s : String) (w : Nat) : String :=
  String.mk (List.replicate (w - s.length) '0' ++ s.data)

/-- Python `dict(Counter(l))`: each distinct element of `l` mapped to its
number of occurrences (values cast to `ℚ` as stored in a result payload). -/
def counter (l : List String) : CountsTable :=
  l.dedup.map (fun s => (s, (l.count s : ℚ)))

/-! ### `QuantumProgram.wait_for_job`

The remote status query `self.__api.get_job(jobid)` is modelled as a
function `get : Nat → JobPayload` giving the payload of the `n`-th query
made during this call.  `time.sleep` is modelled by counting the sleeps
performed.  The Python loop can run forever (the status may stay
`RUNNING` while `timer` skips over `timeout`), so the model takes a fuel
argument and returns `none` if the fuel runs out before the loop exits. -/

/-- Outcome of `wait_for_job`: either the dictionary
`{"status": "Error", "result": msg}` built by the poller itself, or a raw
status payload returned as-is. -/
inductive PollOut
  | errDict (msg : String)
  | payload (j : JobPayload)
deriving DecidableEq

/-- The `while job['status'] == 'RUNNING'` loop of `wait_for_job`.
State: `timer` (seconds accumulated), `k` (index of the next query),
`cur` (the payload of the most recent query), `sleeps` (sleeps done). -/
def waitLoop (get : Nat → JobPayload) (wait timeout : Nat) :
    Nat → Nat → Nat → JobPayload → Nat → Option (PollOut × Nat)
  | 0, _, _, _, _ => none
  | fuel + 1, timer, k, cur, sleeps =>
    if cur.status = "RUNNING" then
      if timer = timeout then some (.errDict "Time Out", sleeps)
      else
        let job := get k
        if job.status = "ERROR_CREATING_JOB" ∨ job.status = "ERROR_RUNNING_JOB" then
          some (.errDict job.status, sleeps + 1)
        else
          waitLoop get wait timeout fuel (timer + wait) (k + 1) job (sleeps + 1)
    else
      some (.payload cur, sleeps)

/-- `QuantumProgram.wait_for_job(jobid, wait, timeout)`; the initial query
is `get 0`, made before the loop is entered. -/
def wait_for_job (get : Nat → JobPayload) (wait timeout fuel : Nat) :
    Option (PollOut × Nat) :=
  waitLoop get wait timeout fuel 0 1 (get 0) 0

/-- A status sequence `[RUNNING, RUNNING, COMPLETED, COMPLETED, ...]`. -/
def seqRRC : Nat → JobPayload :=
  fun n => if n < 2 then ⟨"RUNNING", []⟩ else ⟨"COMPLETED", []⟩

/-- A status sequence that stays `RUNNING` at every query. -/
def seqRun : Nat → JobPayload :=
  fun _ => ⟨"RUNNING", []⟩

/-- A status sequence whose very first payload is a terminal error. -/
def seqErr0 : Nat → JobPayload :=
  fun _ => ⟨"ERROR_CREATING_JOB", []⟩

/-- A status sequence that is `RUNNING` once and then errors. -/
def seqRunErr : Nat → JobPayload :=
  fun n => if n = 0 then ⟨"RUNNING", []⟩ else ⟨"ERROR_RUNNING_JOB", []⟩

/-! ### Program state

Type parameters stand for the opaque collaborator data: `κ` a circuit
object in the Circuit Catalog, `δ` a DAG produced by the unroller, `σ` a
simulator-ready compiled circuit, `γ` a coupling map. -/

/-- `QuantumProgram.__online_devices`. -/
def onlineDevices : List String :=
  ["real", "ibmqx2", "ibmqx3", "simulator", "ibmqx_qasm_simulator"]

/-- `QuantumProgram.__local_devices`. -/
def localDevices : List String :=
  ["local_unitary_simulator", "local_qasm_simulator"]

/-- The default basis gates string. -/
def defaultBasis : String := "u1,u2,u3,cx,id"

/-- One entry of `self.__to_execute[device]`. -/
structure Job (σ γ : Type) where
  name : String
  qasm_compiled : String
  coupling_map : Option γ
  basis_gates : Option String
  compiled_circuit : Option σ
  shots : Int
  max_credits : Int
  seed : Option ℚ
deriving DecidableEq

/-- One entry of `circuits[name]["execution"][device]`. -/
structure ExecRecord (σ γ : Type) where
  qasm_compiled : String
  coupling_map : Option γ
  basis_gates : Option String
  compiled_circuit : Option σ
  shots : Int
  max_credits : Int
  result : Option ResultData
  status : String
deriving DecidableEq

/-- One entry of `self.__quantum_program["circuits"]`; `execution = none`
models the absence of the `"execution"` key (entries are created without
it by `create_circuit` / `add_circuit` / `load_qasm`). -/
structure CircuitEntry (κ σ γ : Type) where
  circuit : κ
  execution : Option (List (String × ExecRecord σ γ))
deriving DecidableEq

/-- The mutable state of a `QuantumProgram` object relevant to the
orchestrator: the Circuit Catalog, the Execution Queue, the Last-Used
Device pointer, and the position in the pseudo-random stream consumed by
`random.random()`. -/
structure ProgState (κ σ γ : Type) where
  circuits : List (String × CircuitEntry κ σ γ)
  toExecute : List (String × List (Job σ γ))
  lastDevice : String
  rngCtr : Nat
deriving DecidableEq

/-- Output of one local sampling-simulator trial
(`simulators.QasmSimulator(...).run()`). -/
structure SimOut where
  result : ResultData
  number_of_cbits : Nat
deriving DecidableEq

/-- External collaborators of the orchestrator, as abstract functions:
the unroller, the mapper passes, the simulator-backend expansion, the
`random` module (an indexed stream of draws), and the two local
simulation engines (which may raise). -/
structure Collab (κ δ σ γ : Type) where
  unroll : κ → String → String × δ
  unrollDag : δ → String → String × δ
  swapMapper : δ → γ → δ
  dirMapper : δ → γ → δ
  cxCancel : δ → δ
  opt1q : δ → δ
  dagQasm : δ → String
  simExpand : String → Option String → σ
  rand : Nat → ℚ
  qasmSim : Option σ → ℚ → Except Exc SimOut
  unitarySim : Option σ → Except Exc ResultData

/-- Output of the remote API's `run_job`: a dictionary carrying either an
`'error'` key or an `'id'` key. -/
inductive ApiRunOut
  | err (msg : String)
  | ok (id : String)

/-- The remote API client (`IBMQuantumExperience`): `runJob` submits a
batch, `getJob jobid n` is the payload of the `n`-th status query for
`jobid`. -/
structure Api where
  runJob : List String → String → Int → Int → ApiRunOut
  getJob : String → Nat → JobPayload

/-- A `{"status": ..., "result": ...}` dictionary returned by `compile`
or `run`; `errorJob` is a polling payload with status `"Error"` returned
verbatim by `run`. -/
inductive PyResult
  | completed
  | error (msg : String)
  | errorJob (j : JobPayload)
deriving DecidableEq

/-- Outcome of a call that can also diverge (polling without fuel) or
raise an exception. -/
inductive Outcome (α : Type)
  | diverge
  | exc (e : Exc)
  | ret (v : α)
deriving DecidableEq

/-! ### `QuantumProgram.compile` -/

section Embedding

variable {κ δ σ γ : Type}

/-- `QuantumProgram.unroller_code(circuit, basis_gates)`:
the basis defaults to `u1,u2,u3,cx,id`. -/
def unroller_code (cl : Collab κ δ σ γ) (circuit : κ) (basisGates : Option String) :
    String × δ :=
  cl.unroll circuit (basisGates.getD defaultBasis)

/-- The compilation of one circuit's qasm in `compile`: unroll, and if a
coupling map is given run the five mapper passes in order (swap mapping,
re-unrolling, direction mapping, cx cancellation, 1q optimisation) and
re-derive the qasm from the final DAG. -/
def compileQasm (cl : Collab κ δ σ γ) (circuit : κ) (basisGates : Option String)
    (couplingMap : Option γ) : String :=
  let (q0, dag0) := unroller_code cl circuit basisGates
  match couplingMap with
  | none => q0
  | some cm =>
    let dag1 := cl.swapMapper dag0 cm
    let (_, dag2) := cl.unrollDag dag1 defaultBasis
    let dag3 := cl.dirMapper dag2 cm
    let dag4 := cl.cxCancel dag3
    let dag5 := cl.opt1q dag4
    cl.dagQasm dag5

/-- The job dictionary built for one circuit in `compile`.  For a local
simulator device the compiled circuit is expanded and a seed is drawn
from the random stream (the draw happens even when the caller supplied a
seed, which then overrides it).  Returns the job and the new stream
position. -/
def mkJob (cl : Collab κ δ σ γ) (name qasmCompiled device : String)
    (shots maxCredits : Int) (basisGates : Option String) (couplingMap : Option γ)
    (seed : Option ℚ) (ctr : Nat) : Job σ γ × Nat :=
  if device ∈ localDevices then
    ({ name := name, qasm_compiled := qasmCompiled, coupling_map := couplingMap,
       basis_gates := basisGates,
       compiled_circuit := some (cl.simExpand qasmCompiled basisGates),
       shots := shots, max_credits := maxCredits,
       seed := some (seed.getD (cl.rand ctr)) }, ctr + 1)
  else
    ({ name := name, qasm_compiled := qasmCompiled, coupling_map := couplingMap,
       basis_gates := basisGates, compiled_circuit := none,
       shots := shots, max_credits := maxCredits, seed := none }, ctr)

/-- `self.__to_execute[device] = []` if absent, then
`self.__to_execute[device].append(job)`. -/
def queueAdd (q : List (String × List (Job σ γ))) (device : String) (j : Job σ γ) :
    List (String × List (Job σ γ)) :=
  match alookup q device with
  | none => q ++ [(device, [j])]
  | some js => ainsert q device (js ++ [j])

/-- The `for name in name_of_circuits` loop of `compile`. -/
def compileLoop (cl : Collab κ δ σ γ) (device : String) (shots maxCredits : Int)
    (basisGates : Option String) (couplingMap : Option γ) (seed : Option ℚ) :
    List String → ProgState κ σ γ → PyResult × ProgState κ σ γ
  | [], st => (.completed, st)
  | name :: rest, st =>
    match alookup st.circuits name with
    | none => (.error (name ++ " not in QuantumProgram"), st)
    | some entry =>
      let qasmCompiled := compileQasm cl entry.circuit basisGates couplingMap
      let (job, ctr') := mkJob cl name qasmCompiled device shots maxCredits
        basisGates couplingMap seed st.rngCtr
      compileLoop cl device shots maxCredits basisGates couplingMap seed rest
        { st with toExecute := queueAdd st.toExecute device job, rngCtr := ctr' }

/-- `QuantumProgram.compile(name_of_circuits, device, shots, max_credits,
basis_gates, coupling_map, seed)`. -/
def compile (cl : Collab κ δ σ γ) (names : List String) (device : String)
    (shots maxCredits : Int) (basisGates : Option String) (couplingMap : Option γ)
    (seed : Option ℚ) (st : ProgState κ σ γ) : PyResult × ProgState κ σ γ :=
  if names = [] then (.error "No circuits", st)
  else compileLoop cl device shots maxCredits basisGates couplingMap seed names st

/-! ### Local execution engines -/

/-- The `for i in range(job["shots"])` trial loop of
`run_local_qasm_simulator`: each trial draws a fresh random seed, runs
the sampling engine, and renders `result.data.classical_state` as a
binary string zero-padded to `number_of_cbits`.  An engine failure or a
missing key aborts the whole call. -/
def runTrials (cl : Collab κ δ σ γ) (circ : Option σ) :
    Nat → Nat → Except Exc (List String × Nat)
  | 0, ctr => .ok ([], ctr)
  | n + 1, ctr =>
    match cl.qasmSim circ (cl.rand ctr) with
    | .error e => .error e
    | .ok b =>
      match b.result.data with
      | none => .error .keyError
      | some ds =>
        match ds.classical_state with
        | none => .error .keyError
        | some s =>
          match runTrials cl circ n (ctr + 1) with
          | .error e => .error e
          | .ok (strs, ctr') => .ok (zfill (pyBin s) b.number_of_cbits :: strs, ctr')

/-- `QuantumProgram.run_local_qasm_simulator(jobs)`: one result entry per
job; `shots == 1` returns the engine's measurement record directly,
`shots > 1` runs the trial loop and stores a `Counter` table.  There is
no exception handling in the source: an engine failure propagates and
aborts the remaining jobs. -/
def run_local_qasm_simulator (cl : Collab κ δ σ γ) :
    List (Job σ γ) → Nat → Except Exc (List QasmResult × Nat)
  | [], ctr => .ok ([], ctr)
  | j :: js, ctr =>
    if j.shots = 1 then
      match cl.qasmSim j.compiled_circuit (cl.rand ctr) with
      | .error e => .error e
      | .ok b =>
        match run_local_qasm_simulator cl js (ctr + 1) with
        | .error e => .error e
        | .ok (rs, ctr') =>
          .ok (⟨some b.result, "COMPLETED"⟩ :: rs, ctr')
    else
      match runTrials cl j.compiled_circuit j.shots.toNat ctr with
      | .error e => .error e
      | .ok (strs, ctr') =>
        match run_local_qasm_simulator cl js ctr' with
        | .error e => .error e
        | .ok (rs, ctr'') =>
          .ok (⟨some ⟨some ⟨some (counter strs), none⟩⟩, "COMPLETED"⟩ :: rs, ctr'')

/-- `QuantumProgram.run_local_unitary_simulator(jobs)`: one deterministic
engine run per job; as with the sampling wrapper, a failure propagates
and aborts the remaining jobs. -/
def run_local_unitary_simulator (cl : Collab κ δ σ γ) :
    List (Job σ γ) → Except Exc (List QasmResult)
  | [] => .ok []
  | j :: js =>
    match cl.unitarySim j.compiled_circuit with
    | .error e => .error e
    | .ok rd =>
      match run_local_unitary_simulator cl js with
      | .error e => .error e
      | .ok rs => .ok (⟨some rd, "COMPLETED"⟩ :: rs)

/-! ### `QuantumProgram.run` -/

/-- The error message for a shots mismatch in a remote batch. -/
def shotsMsg : String :=
  "Online devices only support job batches with equal numbers of shots"

/-- The error message for a max-credits mismatch in a remote batch. -/
def creditsMsg : String :=
  "Online devices only support job batches with equal max credits"

/-- The `for job in self.__to_execute[backend]` loop of the online branch
of `run`: collects the compiled qasms and folds `last_shots` /
`last_max_credits`, which start at the sentinel `-1` and are assigned on
first sight; a later job disagreeing with the recorded value aborts with
the corresponding message. -/
def batchCollect : List (Job σ γ) → List String → Int → Int →
    Except String (List String × Int × Int)
  | [], acc, ls, lc => .ok (acc, ls, lc)
  | j :: rest, acc, ls, lc =>
    let acc' := acc ++ [j.qasm_compiled]
    if ls = -1 then
      if lc = -1 then batchCollect rest acc' j.shots j.max_credits
      else if lc ≠ j.max_credits then .error creditsMsg
      else batchCollect rest acc' j.shots lc
    else if ls ≠ j.shots then .error shotsMsg
    else if lc = -1 then batchCollect rest acc' ls j.max_credits
    else if lc ≠ j.max_credits then .error creditsMsg
    else batchCollect rest acc' ls lc

/-- The record written into `circuits[name]["execution"][backend]` for
one job: the job's bookkeeping fields plus the job result's `result` and
`status`. -/
def mkExecRecord (j : Job σ γ) (r : QasmResult) : ExecRecord σ γ :=
  { qasm_compiled := j.qasm_compiled, coupling_map := j.coupling_map,
    basis_gates := j.basis_gates, compiled_circuit := j.compiled_circuit,
    shots := j.shots, max_credits := j.max_credits,
    result := r.result, status := r.status }

/-- Outcome of the result-filling loop of `run` for one backend. -/
inductive FillOut (κ σ γ : Type)
  | ok (cs : List (String × CircuitEntry κ σ γ))
  | notFound
  | raise (e : Exc)

/-- The `for job in self.__to_execute[backend]` result-filling loop of
`run`: a job whose circuit name is gone returns the internal error; a
circuit entry without an `"execution"` key raises `KeyError`
(`self.__quantum_program["circuits"][name]["execution"]` is read before
being initialised); otherwise the execution record for `backend` is
overwritten. -/
def fillLoop (backend : String) :
    List (String × CircuitEntry κ σ γ) → List (Job σ γ) → List QasmResult →
    FillOut κ σ γ
  | cs, [], _ => .ok cs
  | cs, j :: js, rs =>
    match alookup cs j.name with
    | none => .notFound
    | some entry =>
      match entry.execution with
      | none => .raise .keyError
      | some em =>
        match rs with
        | [] => .raise .indexError
        | r :: rs' =>
          let entry' : CircuitEntry κ σ γ :=
            { entry with execution := some (ainsert em backend (mkExecRecord j r)) }
          fillLoop backend (ainsert cs j.name entry') js rs'

/-- The tail of one backend iteration of `run`, common to the online and
local paths: the result-count assertion, the result-filling loop, and the
continuation with the remaining backends. -/
def finishBackend (backend : String) (jobs : List (Job σ γ))
    (qasms : List QasmResult) (st : ProgState κ σ γ)
    (runRest : ProgState κ σ γ → Outcome (PyResult × ProgState κ σ γ)) :
    Outcome (PyResult × ProgState κ σ γ) :=
  if jobs.length ≠ qasms.length then .exc .assertionError
  else
    match fillLoop backend st.circuits jobs qasms with
    | .notFound => .ret (.error "Internal error, circuit not found",
        { st with toExecute := [] })
    | .raise e => .exc e
    | .ok cs => runRest { st with circuits := cs }

/-- The `for backend in self.__to_execute` loop of `run`, iterating over
the queue in insertion order.  Every early return clears the whole
Execution Queue first; exceptions (assertion failure, missing
`"execution"` key, engine failure) propagate without clearing it. -/
def runBackends (cl : Collab κ δ σ γ) (api : Api) (wa tmo fuel : Nat) :
    List (String × List (Job σ γ)) → ProgState κ σ γ →
    Outcome (PyResult × ProgState κ σ γ)
  | [], st => .ret (.completed, { st with toExecute := [] })
  | (backend, jobs) :: rest, st =>
    let st1 : ProgState κ σ γ := { st with lastDevice := backend }
    if backend ∈ onlineDevices then
      match batchCollect jobs [] (-1) (-1) with
      | .error msg => .ret (.error msg, { st1 with toExecute := [] })
      | .ok (qasms, ls, lc) =>
        match api.runJob qasms backend ls lc with
        | .err e => .ret (.error e, { st1 with toExecute := [] })
        | .ok id =>
          match wait_for_job (api.getJob id) wa tmo fuel with
          | none => .diverge
          | some (.errDict msg, _) => .ret (.error msg, { st1 with toExecute := [] })
          | some (.payload p, _) =>
            if p.status = "Error" then .ret (.errorJob p, { st1 with toExecute := [] })
            else finishBackend backend jobs p.qasms st1
              (fun st' => runBackends cl api wa tmo fuel rest st')
    else
      if backend = "local_qasm_simulator" then
        match run_local_qasm_simulator cl jobs st1.rngCtr with
        | .error e => .exc e
        | .ok (qasms, ctr') => finishBackend backend jobs qasms
            { st1 with rngCtr := ctr' }
            (fun st' => runBackends cl api wa tmo fuel rest st')
      else if backend = "local_unitary_simulator" then
        match run_local_unitary_simulator cl jobs with
        | .error e => .exc e
        | .ok qasms => finishBackend backend jobs qasms st1
            (fun st' => runBackends cl api wa tmo fuel rest st')
      else .ret (.error "Not a local simulator", { st1 with toExecute := [] })

/-- `QuantumProgram.run(wait, timeout)`: drain the Execution Queue. -/
def run (cl : Collab κ δ σ γ) (api : Api) (wa tmo fuel : Nat)
    (st : ProgState κ σ γ) : Outcome (PyResult × ProgState κ σ γ) :=
  runBackends cl api wa tmo fuel st.toExecute st

/-! ### Result accessors -/

/-- `if not device: device = self.__last_device_backend` (Python truthiness:
both an omitted device and an empty string fall back to the pointer). -/
def defaultDevice (st : ProgState κ σ γ) (device : Option String) : String :=
  match device with
  | none => st.lastDevice
  | some d => if d = "" then st.lastDevice else d

/-- Outcome of a result accessor: a value, an error value returned to the
caller, or a raised exception. -/
inductive Acc (α : Type)
  | val (a : α)
  | err (msg : String)
  | raise (e : Exc)
deriving DecidableEq

/-- `QuantumProgram.get_result(name, device)`: an absent circuit name
yields the `Circuit not found` error value, but with the name present the
chain `['execution'][device]['result']` is unguarded, so an absent
`"execution"` key or device key raises `KeyError`. -/
def get_result (st : ProgState κ σ γ) (name : String) (device : Option String) :
    Acc (Option ResultData) :=
  let dev := defaultDevice st device
  match alookup st.circuits name with
  | some entry =>
    match entry.execution with
    | none => .raise .keyError
    | some em =>
      match alookup em dev with
      | none => .raise .keyError
      | some record => .val record.result
  | none => .err "Circuit not found"

/-- `QuantumProgram.get_data(name, device)`: the whole chain
`circuits[name]['execution'][device]['result']['data']` is unguarded:
any absent key raises `KeyError` (and a `None` result raises
`TypeError`). -/
def get_data (st : ProgState κ σ γ) (name : String) (device : Option String) :
    Acc DataSection :=
  let dev := defaultDevice st device
  match alookup st.circuits name with
  | none => .raise .keyError
  | some entry =>
    match entry.execution with
    | none => .raise .keyError
    | some em =>
      match alookup em dev with
      | none => .raise .keyError
      | some record =>
        match record.result with
        | none => .raise .typeError
        | some rd =>
          match rd.data with
          | none => .raise .keyError
          | some ds => .val ds

/-- `QuantumProgram.get_counts(name, device)`: the same chain plus
`['counts']`, wrapped in `try/except KeyError`, which converts any
missing key into the error value (a `TypeError` from a `None` result is
not caught). -/
def get_counts (st : ProgState κ σ γ) (name : String) (device : Option String) :
    Acc CountsTable :=
  let dev := defaultDevice st device
  match alookup st.circuits name with
  | none => .err "Error in circuit name"
  | some entry =>
    match entry.execution with
    | none => .err "Error in circuit name"
    | some em =>
      match alookup em dev with
      | none => .err "Error in circuit name"
      | some record =>
        match record.result with
        | none => .raise .typeError
        | some rd =>
          match rd.data with
          | none => .err "Error in circuit name"
          | some ds =>
            match ds.counts with
            | none => .err "Error in circuit name"
            | some c => .val c

/-- `QuantumProgram.get_compiled_qasm(name, device)`: the chain
`circuits[name]['execution'][device]['qasm_compiled']` wrapped in
`try/except KeyError`; on a missing key a plain message string is
returned. -/
def get_compiled_qasm (st : ProgState κ σ γ) (name : String)
    (device : Option String) : Acc String :=
  let dev := defaultDevice st device
  match alookup st.circuits name with
  | none => .err "No compiled qasm for this circuit"
  | some entry =>
    match entry.execution with
    | none => .err "No compiled qasm for this circuit"
    | some em =>
      match alookup em dev with
      | none => .err "No compiled qasm for this circuit"
      | some record => .val record.qasm_compiled

/-! ### `QuantumProgram.average_data` -/

/-- The accumulation loop of `average_data`:
`temp += counts[key] * observable[key] / tot` over the keys of the counts
table that also appear in the observable. -/
def adSum (counts : CountsTable) (observable : List (String × ℚ)) (tot : ℚ) : ℚ :=
  counts.foldl
    (fun acc kv =>
      match alookup observable kv.1 with
      | some w => acc + kv.2 * w / tot
      | none => acc) 0

/-- `QuantumProgram.average_data(name, observable)`: reads the counts via
`get_counts` (device defaulting to Last-Used-Device), sums the counts
into `tot`, and accumulates `counts[key] * observable[key] / tot`.  If
`get_counts` produced its error dictionary, `sum(counts.values())` raises
`TypeError`; a division with `tot = 0` raises `ZeroDivisionError`. -/
def average_data (st : ProgState κ σ γ) (name : String)
    (observable : List (String × ℚ)) : Except Exc ℚ :=
  match get_counts st name none with
  | .raise e => .error e
  | .err _ => .error .typeError
  | .val counts =>
    let tot := (counts.map Prod.snd).sum
    if tot = 0 ∧ counts.any (fun kv => (alookup observable kv.1).isSome) then
      .error .zeroDivisionError
    else .ok (adSum counts observable tot)

/-- Projection of a run outcome onto the returned result value. -/
def resultOf (o : Outcome (PyResult × ProgState κ σ γ)) : Option PyResult :=
  match o with
  | .ret (r, _) => some r
  | _ => none

end Embedding

/-! ### `_remove_identity` (hamiltonian_phase_estimation.py) -/

/-- The symplectic data of a `Pauli` primitive: its X and Z component
bit vectors. -/
structure PauliPrim where
  x : List Bool
  z : List Bool
deriving DecidableEq

/-- One term of a Pauli sum: a primitive with a coefficient. -/
structure PauliTerm where
  primitive : PauliPrim
  coeff : ℚ
deriving DecidableEq

/-- The test `p.x.any() or p.z.any()` of `_remove_identity`: true iff the
term is not proportional to the identity. -/
def isNonId (t : PauliTerm) : Bool :=
  t.primitive.x.any id || t.primitive.z.any id

/-- The `for op in pauli_sum` loop of `_remove_identity`, with the
accumulators `idcoeff` and `ops`. -/
def riLoop : List PauliTerm → ℚ → List PauliTerm → ℚ × List PauliTerm
  | [], idcoeff, ops => (idcoeff, ops)
  | op :: rest, idcoeff, ops =>
    if isNonId op then riLoop rest idcoeff (ops ++ [op])
    else riLoop rest (idcoeff + op.coeff) ops

/-- `_remove_identity(pauli_sum)`: the sum of the coefficients of the
identity terms, and `SummedOp` of the remaining terms. -/
def remove_identity (l : List PauliTerm) : ℚ × List PauliTerm :=
  riLoop l 0 []

/-- The identity primitive on `n` qubits (no X and no Z component). -/
def idPrim (n : Nat) : PauliPrim :=
  ⟨List.replicate n false, List.replicate n false⟩

/-- The total coefficient of primitive `p` in the formal sum `l` — the
semantics of a Pauli sum as a coefficient map. -/
def sumCoeffOf (l : List PauliTerm) (p : PauliPrim) : ℚ :=
  ((l.filter (fun t => t.primitive = p)).map PauliTerm.coeff).sum

/-! ### Concrete instances used by witnesses and counterexamples -/

/-- A simulator trial outcome with classical state `s` and `w` classical
bits. -/
def simOutOf (s w : Nat) : SimOut :=
  ⟨⟨some ⟨none, some s⟩⟩, w⟩

/-- A trivial collaborator bundle whose sampling engine always succeeds
with classical state 1 on 2 classical bits. -/
def okCollab : Collab Unit Unit Unit Unit :=
  { unroll := fun _ _ => ("", ()), unrollDag := fun _ _ => ("", ()),
    swapMapper := fun d _ => d, dirMapper := fun d _ => d,
    cxCancel := id, opt1q := id, dagQasm := fun _ => "",
    simExpand := fun _ _ => (), rand := fun _ => 0,
    qasmSim := fun _ _ => .ok (simOutOf 1 2),
    unitarySim := fun _ => .ok ⟨none⟩ }

/-- A collaborator bundle whose local engines always fail. -/
def failCollab : Collab Unit Unit Unit Unit :=
  { okCollab with
    qasmSim := fun _ _ => .error (.engine "boom"),
    unitarySim := fun _ => .error (.engine "boom") }

/-- A remote API that accepts every submission and reports a completed
two-entry batch on the first status query. -/
def okApi : Api :=
  { runJob := fun _ _ _ _ => .ok "job1",
    getJob := fun _ _ => ⟨"COMPLETED", [⟨some ⟨none⟩, "DONE"⟩, ⟨some ⟨none⟩, "DONE"⟩]⟩ }

/-- The empty program state. -/
def st0 : ProgState Unit Unit Unit := ⟨[], [], "", 0⟩

/-- A local job with a single shot. -/
def jobL : Job Unit Unit := ⟨"a", "", none, none, some (), 1, 3, none⟩

/-- A local job with two shots. -/
def jobShots2 : Job Unit Unit := ⟨"a", "", none, none, some (), 2, 3, none⟩

/-- A remote job whose `shots` is the sentinel value `-1`. -/
def jobM1 : Job Unit Unit := ⟨"a", "qa", none, none, none, -1, 3, none⟩

/-- A remote job with 5 shots. -/
def jobS5 : Job Unit Unit := ⟨"b", "qb", none, none, none, 5, 3, none⟩

/-- A state whose queue holds a heterogeneous batch `[-1, 5]` of shots
for the online device `simulator`, with both circuits present and
initialised execution maps. -/
def stC4 : ProgState Unit Unit Unit :=
  ⟨[("a", ⟨(), some []⟩), ("b", ⟨(), some []⟩)], [("simulator", [jobM1, jobS5])], "", 0⟩

/-- A remote job with 7 shots. -/
def jobS7 : Job Unit Unit := ⟨"a", "qa", none, none, none, 7, 3, none⟩

/-- A state whose queue holds a heterogeneous batch `[7, 5]` of shots
(no sentinel values) for the online device `simulator`. -/
def stC4b : ProgState Unit Unit Unit :=
  ⟨[("a", ⟨(), some []⟩), ("b", ⟨(), some []⟩)], [("simulator", [jobS7, jobS5])], "", 0⟩

/-- A state whose queue holds a homogeneous remote batch (two jobs with 5
shots and 3 max credits each). -/
def stC4c : ProgState Unit Unit Unit :=
  ⟨[("a", ⟨(), some []⟩), ("b", ⟨(), some []⟩)], [("simulator", [jobS5, jobS5])], "", 0⟩

/-- The state produced by a successful dispatch of `stC4c`: both jobs
are named `b`, so the record for circuit `b` on device `simulator` is
written twice (the second write overwrites the first). -/
def stC4cFinal : ProgState Unit Unit Unit :=
  ⟨[("a", ⟨(), some []⟩),
    ("b", ⟨(), some [("simulator", mkExecRecord jobS5 ⟨some ⟨none⟩, "DONE"⟩)]⟩)],
   [], "simulator", 0⟩

/-- A state with one catalogued circuit `a` and one job already queued
for another device. -/
def stC1 : ProgState Unit Unit Unit :=
  ⟨[("a", ⟨(), none⟩)], [("other", [jobS5])], "", 0⟩

/-- A state with a stored counts table `{"00": 3, "11": 7}` for circuit
`c` on the last-used device `dev`. -/
def stC7 : ProgState Unit Unit Unit :=
  ⟨[("c", ⟨(), some [("dev",
      ⟨"", none, none, none, 1024, 3,
        some ⟨some ⟨some [("00", 3), ("11", 7)], none⟩⟩, "COMPLETED"⟩)]⟩)],
    [], "dev", 0⟩

/-- The observable `{"00": 1.0, "11": -1.0}`. -/
def obsC7 : List (String × ℚ) := [("00", 1), ("11", -1)]

/-- A two-qubit identity Pauli term with coefficient 3. -/
def ptI2 : PauliTerm := ⟨⟨[false, false], [false, false]⟩, 3⟩

/-- A two-qubit non-identity Pauli term (an X component) with
coefficient 5. -/
def ptX2 : PauliTerm := ⟨⟨[true, false], [false, false]⟩, 5⟩

/-- A small two-qubit Pauli sum with one identity and one non-identity
term. -/
def plC10 : List PauliTerm := [ptI2, ptX2]

end QP

namespace QP

/-! ## Theorems -/

theorem binDigs_length_le {n w : Nat} (h : n < 2 ^ w) : (binDigs n).length ≤ w := by
  induction n using Nat.strong_induction_on generalizing w with
  | _ n ih =>
    rw [binDigs]
    by_cases h0 : n = 0
    · simp [h0]
    · simp only [h0, dite_false, List.length_append, List.length_singleton]
      cases w with
      | zero => simp at h; omega
      | succ w' =>
        have hdiv : n / 2 < 2 ^ w' := by
          have : n < 2 ^ w' * 2 := by rw [pow_succ] at h; omega
          omega
        have := ih (n / 2) (Nat.div_lt_self (Nat.pos_of_ne_zero h0) (by decide)) hdiv
        omega

theorem zfill_length (s : String) (w : Nat) :
    (zfill s w).length = max w s.length := by
  show (List.replicate (w - s.length) '0' ++ s.data).length = max w s.length
  rw [List.length_append, List.length_replicate]
  have : s.data.length = s.length := rfl
  omega

theorem pyBin_length_le {n w : Nat} (h1 : 1 ≤ w) (h2 : n < 2 ^ w) :
    (pyBin n).length ≤ w := by
  unfold pyBin
  by_cases h0 : n = 0
  · simpa [h0] using h1
  · simp only [h0, if_false]
    have : (String.mk (binDigs n)).length = (binDigs n).length := rfl
    rw [this]
    exact binDigs_length_le h2

/-- A trial outcome rendered as a fixed-width bitstring has exactly the
reported classical-bit width. -/
theorem render_length {n w : Nat} (h1 : 1 ≤ w) (h2 : n < 2 ^ w) :
    (zfill (pyBin n) w).length = w := by
  rw [zfill_length]
  exact Nat.max_eq_left (pyBin_length_le h1 h2)

theorem counter_sum (l : List String) :
    ((counter l).map Prod.snd).sum = (l.length : ℚ) := by
  unfold counter
  rw [List.map_map]
  have : (Prod.snd ∘ fun s => (s, (l.count s : ℚ))) = fun s => ((l.count s : ℚ)) := rfl
  rw [this]
  have hsum : (l.dedup.map fun s => ((l.count s : ℚ))).sum
      = ((l.dedup.map fun s => l.count s).sum : ℚ) := by
    induction l.dedup with
    | nil => simp
    | cons a t ih => simp [ih]
  rw [hsum, List.sum_map_count_dedup_eq_length]

theorem counter_keys_mem {l : List String} {k : String} {v : ℚ}
    (h : (k, v) ∈ counter l) : k ∈ l := by
  unfold counter at h
  obtain ⟨s, hs, heq⟩ := List.mem_map.mp h
  cases heq
  exact List.mem_dedup.mp hs

/-! ### Poller lemmas -/

/-- If every query returns `RUNNING`, the loop times out after exactly
`m` further sleeps, where `timeout = timer + m * wait`. -/
theorem waitLoop_timeout (get : Nat → JobPayload) (wa tmo : Nat)
    (hrun : ∀ n, (get n).status = "RUNNING") (hwa : 0 < wa) :
    ∀ m fuel timer k cur sleeps, cur.status = "RUNNING" →
      timer + m * wa = tmo → m + 1 ≤ fuel →
      waitLoop get wa tmo fuel timer k cur sleeps
        = some (.errDict "Time Out", sleeps + m) := by
  intro m
  induction m with
  | zero =>
    intro fuel timer k cur sleeps hcur htimer hfuel
    obtain ⟨f, rfl⟩ : ∃ f, fuel = f + 1 := ⟨fuel - 1, by omega⟩
    simp only [waitLoop, hcur, if_true]
    simp at htimer
    simp [htimer]
  | succ m ih =>
    intro fuel timer k cur sleeps hcur htimer hfuel
    obtain ⟨f, rfl⟩ : ∃ f, fuel = f + 1 := ⟨fuel - 1, by omega⟩
    simp only [waitLoop, hcur, if_true]
    have hne : timer ≠ tmo := by
      have : 0 < wa * (m + 1) := by positivity
      nlinarith [htimer]
    simp only [hne, if_false]
    rw [hrun k]
    simp only [if_neg (by decide : ¬("RUNNING" = "ERROR_CREATING_JOB" ∨ "RUNNING" = "ERROR_RUNNING_JOB"))]
    have := ih f (timer + wa) (k + 1) (get k) (sleeps + 1) (hrun k) (by
      rw [← htimer]; ring) (by omega)
    rw [this]
    congr 2
    omega

/-- If queries `k, k+1, …, k+m-1` are `RUNNING`, query `k+m` is a terminal
error, and the timer never hits `timeout` first, the loop returns the
Error wrapper after `m + 1` further sleeps. -/
theorem waitLoop_error (get : Nat → JobPayload) (wa tmo : Nat) :
    ∀ m fuel timer k cur sleeps, cur.status = "RUNNING" →
      (∀ i < m, (get (k + i)).status = "RUNNING") →
      ((get (k + m)).status = "ERROR_CREATING_JOB" ∨
        (get (k + m)).status = "ERROR_RUNNING_JOB") →
      (∀ i ≤ m, timer + i * wa ≠ tmo) →
      m + 1 ≤ fuel →
      waitLoop get wa tmo fuel timer k cur sleeps
        = some (.errDict (get (k + m)).status, sleeps + m + 1) := by
  intro m
  induction m with
  | zero =>
    intro fuel timer k cur sleeps hcur _ herr htimer hfuel
    obtain ⟨f, rfl⟩ : ∃ f, fuel = f + 1 := ⟨fuel - 1, by omega⟩
    simp only [waitLoop, hcur, if_true]
    have hne : timer ≠ tmo := by have := htimer 0 (by omega); omega
    simp only [hne, if_false]
    simp only [Nat.add_zero] at herr
    simp [herr]
  | succ m ih =>
    intro fuel timer k cur sleeps hcur hrun herr htimer hfuel
    obtain ⟨f, rfl⟩ : ∃ f, fuel = f + 1 := ⟨fuel - 1, by omega⟩
    simp only [waitLoop, hcur, if_true]
    have hne : timer ≠ tmo := by have := htimer 0 (by omega); omega
    simp only [hne, if_false]
    have hk : (get k).status = "RUNNING" := by
      have := hrun 0 (by omega); simpa using this
    rw [hk]
    simp only [if_neg (by decide : ¬("RUNNING" = "ERROR_CREATING_JOB" ∨ "RUNNING" = "ERROR_RUNNING_JOB"))]
    have harg : (get (k + 1 + m)).status = (get (k + (m + 1))).status := by
      have e : k + 1 + m = k + (m + 1) := by omega
      rw [e]
    have := ih f (timer + wa) (k + 1) (get k) (sleeps + 1) hk
      (fun i hi => by
        have := hrun (i + 1) (by omega)
        have e : k + (i + 1) = k + 1 + i := by omega
        rwa [e] at this)
      (by rwa [harg])
      (fun i hi => by
        have := htimer (i + 1) (by omega)
        have e : timer + (i + 1) * wa = timer + wa + i * wa := by ring
        rwa [e] at this)
      (by omega)
    rw [this, harg]
    congr 2
    omega

/-- A first query whose status is anything other than `RUNNING` skips the
loop entirely: the raw payload is returned with no sleep. -/
theorem wait_for_job_first_query (get : Nat → JobPayload) (wa tmo fuel : Nat)
    (h : (get 0).status ≠ "RUNNING") (hfuel : 1 ≤ fuel) :
    wait_for_job get wa tmo fuel = some (.payload (get 0), 0) := by
  obtain ⟨f, rfl⟩ : ∃ f, fuel = f + 1 := ⟨fuel - 1, by omega⟩
  unfold wait_for_job
  simp only [waitLoop, h, if_false]

/-- C5. A status sequence `[RUNNING, RUNNING, COMPLETED]` with `wait = 1`,
`timeout = 5` makes `wait_for_job` return the COMPLETED payload after
exactly 2 sleeps; and for any sequence that stays `RUNNING` at every
query, with `0 < wait` dividing `timeout`, the call returns the
`Time Out` error exactly when the accumulated timer reaches `timeout`,
after `timeout / wait` sleeps — so the elapsed counter never exceeds
`timeout`. -/
theorem claim_C5_polling :
    (∀ get : Nat → JobPayload, (get 0).status = "RUNNING" →
      (get 1).status = "RUNNING" → (get 2).status = "COMPLETED" →
      ∀ fuel, 3 ≤ fuel →
      wait_for_job get 1 5 fuel = some (.payload (get 2), 2)) ∧
    (∀ (get : Nat → JobPayload) (wa tmo fuel : Nat),
      (∀ n, (get n).status = "RUNNING") → 0 < wa → wa ∣ tmo →
      tmo / wa + 1 ≤ fuel →
      wait_for_job get wa tmo fuel = some (.errDict "Time Out", tmo / wa)) := by
  constructor
  · intro get h0 h1 h2 fuel hfuel
    obtain ⟨f, rfl⟩ : ∃ f, fuel = f + 3 := ⟨fuel - 3, by omega⟩
    unfold wait_for_job
    simp [waitLoop, h0, h1, h2]
  · intro get wa tmo fuel hrun hwa hdvd hfuel
    obtain ⟨m, rfl⟩ := hdvd
    have hdiv : wa * m / wa = m := Nat.mul_div_cancel_left m hwa
    rw [hdiv] at hfuel ⊢
    unfold wait_for_job
    have := waitLoop_timeout get wa (wa * m) hrun hwa m fuel 0 1 (get 0) 0
      (hrun 0) (by ring) hfuel
    simpa using this

/-- C5 witness: the theorem applied to the concrete sequences `seqRRC`
and `seqRun`. -/
theorem claim_C5_polling_witness :
    wait_for_job seqRRC 1 5 3 = some (.payload ⟨"COMPLETED", []⟩, 2) ∧
    wait_for_job seqRun 2 6 4 = some (.errDict "Time Out", 3) := by
  constructor
  · have := claim_C5_polling.1 seqRRC rfl rfl rfl 3 (by omega)
    simpa [seqRRC] using this
  · have := claim_C5_polling.2 seqRun 2 6 4 (fun n => rfl) (by omega)
      (by decide) (by decide)
    simpa using this

/-- C6 counterexample: when the very first query already reports
`ERROR_CREATING_JOB`, `wait_for_job` returns the raw status payload
as-is, not the `{"status": "Error", "result": status}` wrapper the claim
requires. -/
theorem claim_C6_counterexample :
    wait_for_job seqErr0 5 60 61 = some (.payload ⟨"ERROR_CREATING_JOB", []⟩, 0) ∧
    (PollOut.payload ⟨"ERROR_CREATING_JOB", []⟩ ≠
      PollOut.errDict "ERROR_CREATING_JOB") := by
  constructor
  · rfl
  · intro h
    cases h

/-- C6 amended: a terminal error status observed on a query made *after a
sleep* makes `wait_for_job` return the Error wrapper carrying the
underlying status immediately; but a terminal error status on the very
first query (before any sleep) skips the polling loop and the raw status
payload is returned unchanged. -/
theorem claim_C6_remote_job_error :
    (∀ (get : Nat → JobPayload) (wa tmo fuel j : Nat), 1 ≤ j →
      (∀ i < j, (get i).status = "RUNNING") →
      ((get j).status = "ERROR_CREATING_JOB" ∨
        (get j).status = "ERROR_RUNNING_JOB") →
      (∀ i < j, i * wa ≠ tmo) →
      j + 1 ≤ fuel →
      wait_for_job get wa tmo fuel = some (.errDict (get j).status, j)) ∧
    (∀ (get : Nat → JobPayload) (wa tmo fuel : Nat), 1 ≤ fuel →
      ((get 0).status = "ERROR_CREATING_JOB" ∨
        (get 0).status = "ERROR_RUNNING_JOB") →
      wait_for_job get wa tmo fuel = some (.payload (get 0), 0)) := by
  constructor
  · intro get wa tmo fuel j hj hrun herr htimer hfuel
    obtain ⟨m, rfl⟩ : ∃ m, j = m + 1 := ⟨j - 1, by omega⟩
    have hidx : (1 : Nat) + m = m + 1 := by omega
    unfold wait_for_job
    have := waitLoop_error get wa tmo m fuel 0 1 (get 0) 0
      (hrun 0 (by omega))
      (fun i hi => by
        have := hrun (i + 1) (by omega)
        have e : (1 : Nat) + i = i + 1 := by omega
        rwa [e])
      (by rwa [hidx])
      (fun i hi => by
        have := htimer i (by omega)
        simpa using this)
      (by omega)
    rw [this, hidx]
    norm_num
  · intro get wa tmo fuel hfuel herr
    apply wait_for_job_first_query
    · rcases herr with h | h <;> rw [h] <;> decide
    · exact hfuel

/-- C6 witness: the amended theorem applied to the concrete sequences
`seqRunErr` (error after one sleep, wrapper returned) and `seqErr0`
(error on the first query, raw payload returned). -/
theorem claim_C6_remote_job_error_witness :
    wait_for_job seqRunErr 1 5 3 = some (.errDict "ERROR_RUNNING_JOB", 1) ∧
    wait_for_job seqErr0 1 5 3 = some (.payload ⟨"ERROR_CREATING_JOB", []⟩, 0) := by
  constructor
  · have := claim_C6_remote_job_error.1 seqRunErr 1 5 3 1 (by omega)
      (by decide) (by decide) (by decide) (by omega)
    simpa [seqRunErr] using this
  · have := claim_C6_remote_job_error.2 seqErr0 1 5 3 (by omega) (by decide)
    simpa [seqErr0] using this

/-! ### Local engine claims (C3, C8) -/

/-- C3 counterexample: with an engine that fails, the sampling wrapper
propagates the failure as an exception (no entry with status `FAIL` and
`null` result is produced, and the sibling job is aborted), and so does
the unitary wrapper. -/
theorem claim_C3_counterexample :
    run_local_qasm_simulator failCollab [jobL, jobL] 0 = .error (.engine "boom") ∧
    run_local_unitary_simulator failCollab [jobL, jobL] = .error (.engine "boom") :=
  ⟨rfl, rfl⟩

/-- C3 amended: the local engine wrappers contain no exception handling:
a failure of the underlying engine propagates out of the wrapper and
aborts the remaining sibling jobs, and in any batch that is actually
returned every entry has status `COMPLETED` with a non-null result — the
`FAIL`/`null` initialisation is never observable. -/
theorem claim_C3_local_engine_failure :
    (∀ {κ δ σ γ : Type} (cl : Collab κ δ σ γ) (jobs : List (Job σ γ))
      (ctr : Nat) (res : List QasmResult) (ctr' : Nat),
      run_local_qasm_simulator cl jobs ctr = .ok (res, ctr') →
      ∀ r ∈ res, r.status = "COMPLETED" ∧ r.result ≠ none) ∧
    (∀ {κ δ σ γ : Type} (cl : Collab κ δ σ γ) (jobs : List (Job σ γ))
      (res : List QasmResult),
      run_local_unitary_simulator cl jobs = .ok res →
      ∀ r ∈ res, r.status = "COMPLETED" ∧ r.result ≠ none) ∧
    (∀ {κ δ σ γ : Type} (cl : Collab κ δ σ γ) (j : Job σ γ) (js : List (Job σ γ))
      (ctr : Nat) (e : Exc), j.shots = 1 →
      cl.qasmSim j.compiled_circuit (cl.rand ctr) = .error e →
      run_local_qasm_simulator cl (j :: js) ctr = .error e) ∧
    (∀ {κ δ σ γ : Type} (cl : Collab κ δ σ γ) (j : Job σ γ) (js : List (Job σ γ))
      (e : Exc), cl.unitarySim j.compiled_circuit = .error e →
      run_local_unitary_simulator cl (j :: js) = .error e) := by
  refine ⟨?_, ?_, ?_, ?_⟩
  · intro κ δ σ γ cl jobs
    induction jobs with
    | nil =>
      intro ctr res ctr' h r hr
      simp only [run_local_qasm_simulator] at h
      cases h
      cases hr
    | cons j js ih =>
      intro ctr res ctr' h r hr
      simp only [run_local_qasm_simulator] at h
      by_cases h1 : j.shots = 1
      · rw [if_pos h1] at h
        cases hq : cl.qasmSim j.compiled_circuit (cl.rand ctr) with
        | error e => rw [hq] at h; cases h
        | ok b =>
          rw [hq] at h
          cases hrec : run_local_qasm_simulator cl js (ctr + 1) with
          | error e => rw [hrec] at h; cases h
          | ok p =>
            obtain ⟨rs, c⟩ := p
            rw [hrec] at h
            dsimp only at h
            rw [Except.ok.injEq, Prod.mk.injEq] at h
            obtain ⟨hres, hctr⟩ := h
            subst hres
            cases hr with
            | head => exact ⟨rfl, by simp⟩
            | tail _ hmem => exact ih (ctr + 1) rs c hrec r hmem
      · rw [if_neg h1] at h
        cases ht : runTrials cl j.compiled_circuit j.shots.toNat ctr with
        | error e => rw [ht] at h; cases h
        | ok p =>
          obtain ⟨strs, c1⟩ := p
          rw [ht] at h
          dsimp only at h
          cases hrec : run_local_qasm_simulator cl js c1 with
          | error e => rw [hrec] at h; cases h
          | ok p2 =>
            obtain ⟨rs, c2⟩ := p2
            rw [hrec] at h
            dsimp only at h
            rw [Except.ok.injEq, Prod.mk.injEq] at h
            obtain ⟨hres, hctr⟩ := h
            subst hres
            cases hr with
            | head => exact ⟨rfl, by simp⟩
            | tail _ hmem => exact ih c1 rs c2 hrec r hmem
  · intro κ δ σ γ cl jobs
    induction jobs with
    | nil =>
      intro res h r hr
      simp only [run_local_unitary_simulator] at h
      cases h
      cases hr
    | cons j js ih =>
      intro res h r hr
      simp only [run_local_unitary_simulator] at h
      cases hu : cl.unitarySim j.compiled_circuit with
      | error e => rw [hu] at h; cases h
      | ok rd =>
        rw [hu] at h
        dsimp only at h
        cases hrec : run_local_unitary_simulator cl js with
        | error e => rw [hrec] at h; cases h
        | ok rs =>
          rw [hrec] at h
          dsimp only at h
          rw [Except.ok.injEq] at h
          subst h
          cases hr with
          | head => exact ⟨rfl, by simp⟩
          | tail _ hmem => exact ih rs hrec r hmem
  · intro κ δ σ γ cl j js ctr e h1 hq
    simp only [run_local_qasm_simulator, h1, if_true, hq]
  · intro κ δ σ γ cl j js e hu
    simp only [run_local_unitary_simulator, hu]

/-- C3 witness: the amended theorem applied to the failing collaborator
on a one-job batch and to the successful collaborator. -/
theorem claim_C3_local_engine_failure_witness :
    run_local_qasm_simulator failCollab [jobL] 0 = .error (.engine "boom") ∧
    run_local_unitary_simulator failCollab [jobL] = .error (.engine "boom") := by
  constructor
  · exact claim_C3_local_engine_failure.2.2.1 failCollab jobL [] 0 (.engine "boom") rfl rfl
  · exact claim_C3_local_engine_failure.2.2.2 failCollab jobL [] (.engine "boom") rfl

/-- Evaluation of the trial loop when every engine call succeeds with
classical state `s i` on `w` classical bits. -/
theorem runTrials_eval {κ δ σ γ : Type} (cl : Collab κ δ σ γ) (circ : Option σ)
    (w : Nat) :
    ∀ (n ctr : Nat) (s : Nat → Nat) (cnts : Nat → Option CountsTable),
      (∀ i < n, cl.qasmSim circ (cl.rand (ctr + i)) =
        .ok ⟨⟨some ⟨cnts i, some (s i)⟩⟩, w⟩) →
      runTrials cl circ n ctr =
        .ok ((List.range n).map (fun i => zfill (pyBin (s i)) w), ctr + n) := by
  intro n
  induction n with
  | zero => intro ctr s cnts _; simp [runTrials]
  | succ n ih =>
    intro ctr s cnts h
    have h0 := h 0 (by omega)
    rw [Nat.add_zero] at h0
    have hrec := ih (ctr + 1) (fun i => s (i + 1)) (fun i => cnts (i + 1))
      (fun i hi => by
        have := h (i + 1) (by omega)
        have e : ctr + (i + 1) = ctr + 1 + i := by omega
        rwa [e] at this)
    simp only [runTrials, h0, hrec]
    rw [List.range_succ_eq_map, List.map_cons, List.map_map]
    have e1 : ctr + 1 + n = ctr + (n + 1) := by omega
    rw [e1]
    rfl

/-- C8: a job with `shots = N > 1` on the sampling engine (every trial
succeeding with a classical state below `2 ^ w`, `w ≥ 1` classical bits)
runs exactly `N` trials (the random stream advances by `N`), renders each
outcome as a `w`-wide zero-padded bitstring, reports status `COMPLETED`,
and returns a counts table whose keys are exactly the distinct observed
bitstrings (each of width `w`) and whose values sum to `N`. -/
theorem claim_C8_sampling_counts {κ δ σ γ : Type} (cl : Collab κ δ σ γ)
    (j : Job σ γ) (ctr N w : Nat) (s : Nat → Nat)
    (cnts : Nat → Option CountsTable)
    (hN : j.shots = (N : Int)) (hN1 : 1 < N) (hw : 1 ≤ w)
    (hsim : ∀ i < N, cl.qasmSim j.compiled_circuit (cl.rand (ctr + i)) =
      .ok ⟨⟨some ⟨cnts i, some (s i)⟩⟩, w⟩)
    (hlt : ∀ i < N, s i < 2 ^ w) :
    run_local_qasm_simulator cl [j] ctr =
      .ok ([⟨some ⟨some ⟨some (counter ((List.range N).map
        (fun i => zfill (pyBin (s i)) w))), none⟩⟩, "COMPLETED"⟩], ctr + N) ∧
    ((counter ((List.range N).map (fun i => zfill (pyBin (s i)) w))).map
      Prod.snd).sum = (N : ℚ) ∧
    (∀ kv ∈ counter ((List.range N).map (fun i => zfill (pyBin (s i)) w)),
      kv.1.length = w ∧ ∃ i < N, kv.1 = zfill (pyBin (s i)) w) := by
  refine ⟨?_, ?_, ?_⟩
  · have hne : ¬ j.shots = 1 := by
      rw [hN]; intro h
      have : N = 1 := by exact_mod_cast h
      omega
    have htoNat : j.shots.toNat = N := by rw [hN]; simp
    have ht := runTrials_eval cl j.compiled_circuit w N ctr s cnts hsim
    simp only [run_local_qasm_simulator, hne, if_false, htoNat, ht]
  · rw [counter_sum]
    simp
  · intro kv hkv
    have hmem := counter_keys_mem hkv
    obtain ⟨i, hi, hkey⟩ := List.mem_map.mp hmem
    have hiN : i < N := List.mem_range.mp hi
    refine ⟨?_, ⟨i, hiN, hkey.symm⟩⟩
    rw [← hkey]
    exact render_length hw (hlt i hiN)

/-- C8 witness: the theorem applied to the trivial collaborator and the
two-shot job (both trials observe classical state 1 on 2 bits, giving the
table `{"01": 2}`). -/
theorem claim_C8_sampling_counts_witness :
    run_local_qasm_simulator okCollab [jobShots2] 0 =
      .ok ([⟨some ⟨some ⟨some (counter [zfill (pyBin 1) 2, zfill (pyBin 1) 2]),
        none⟩⟩, "COMPLETED"⟩], 2) := by
  have := (claim_C8_sampling_counts okCollab jobShots2 0 2 2 (fun _ => 1)
    (fun _ => none) rfl (by omega) (by omega)
    (fun i _ => rfl) (fun i _ => by norm_num)).1
  simpa [List.range_succ] using this

/-! ### Compiler claims (C1) -/

theorem alookup_ainsert_ne {α : Type} (l : List (String × α)) (k k' : String)
    (v : α) (h : k' ≠ k) : alookup (ainsert l k v) k' = alookup l k' := by
  induction l with
  | nil => simp [ainsert, alookup, h, Ne.symm h]
  | cons a rest ih =>
    obtain ⟨ak, av⟩ := a
    by_cases hak : ak = k
    · subst hak
      simp only [ainsert, if_pos rfl]
      simp [alookup, Ne.symm h]
    · simp only [ainsert, if_neg hak]
      by_cases hak' : ak = k'
      · simp [alookup, hak']
      · simp [alookup, hak', ih]

theorem alookup_queueAdd_ne {σ γ : Type} (q : List (String × List (Job σ γ)))
    (device d : String) (j : Job σ γ) (hne : d ≠ device) :
    alookup (queueAdd q device j) d = alookup q d := by
  unfold queueAdd
  cases h : alookup q device with
  | none =>
    induction q with
    | nil => simp [alookup, Ne.symm hne]
    | cons a rest ih =>
      obtain ⟨ak, av⟩ := a
      simp only [alookup] at h ⊢
      by_cases hak : ak = d
      · simp [hak]
      · simp only [List.cons_append, alookup, hak, if_neg hak]
        by_cases hdev : ak = device
        · rw [if_pos hdev] at h; cases h
        · rw [if_neg hdev] at h
          exact ih h
  | some js => exact alookup_ainsert_ne q device d (js ++ [j]) hne

/-- The compile loop never touches the Circuit Catalog or the Last-Used
Device pointer, and only ever appends to the target device's queue
entry. -/
theorem compileLoop_preserves {κ δ σ γ : Type} (cl : Collab κ δ σ γ)
    (device : String) (shots maxCredits : Int) (basisGates : Option String)
    (couplingMap : Option γ) (seed : Option ℚ) :
    ∀ (names : List String) (st : ProgState κ σ γ),
      ((compileLoop cl device shots maxCredits basisGates couplingMap seed
        names st).2.circuits = st.circuits) ∧
      ((compileLoop cl device shots maxCredits basisGates couplingMap seed
        names st).2.lastDevice = st.lastDevice) ∧
      (∀ d, d ≠ device →
        alookup (compileLoop cl device shots maxCredits basisGates couplingMap
          seed names st).2.toExecute d = alookup st.toExecute d) := by
  intro names
  induction names with
  | nil => intro st; exact ⟨rfl, rfl, fun d _ => rfl⟩
  | cons name rest ih =>
    intro st
    simp only [compileLoop]
    cases hl : alookup st.circuits name with
    | none => exact ⟨rfl, rfl, fun d _ => rfl⟩
    | some entry =>
      have := ih { st with
        toExecute := queueAdd st.toExecute device
          (mkJob cl name (compileQasm cl entry.circuit basisGates couplingMap)
            device shots maxCredits basisGates couplingMap seed st.rngCtr).1,
        rngCtr := (mkJob cl name (compileQasm cl entry.circuit basisGates couplingMap)
            device shots maxCredits basisGates couplingMap seed st.rngCtr).2 }
      refine ⟨this.1, this.2.1, fun d hd => ?_⟩
      rw [this.2.2 d hd]
      exact alookup_queueAdd_ne st.toExecute device d _ hd

/-- Compiling a list whose prefix is present in the catalog and which
then hits a missing name behaves like compiling just the prefix, followed
by the error return. -/
theorem compileLoop_split {κ δ σ γ : Type} (cl : Collab κ δ σ γ)
    (device : String) (shots maxCredits : Int) (basisGates : Option String)
    (couplingMap : Option γ) (seed : Option ℚ) (m : String) (rest : List String) :
    ∀ (found : List String) (st : ProgState κ σ γ),
      (∀ x ∈ found, (alookup st.circuits x).isSome) →
      alookup st.circuits m = none →
      compileLoop cl device shots maxCredits basisGates couplingMap seed
        (found ++ m :: rest) st =
      (.error (m ++ " not in QuantumProgram"),
        (compileLoop cl device shots maxCredits basisGates couplingMap seed
          found st).2) := by
  intro found
  induction found with
  | nil =>
    intro st _ hm
    simp only [List.nil_append, compileLoop, hm]
  | cons x found ih =>
    intro st hfound hm
    obtain ⟨entry, hx⟩ := Option.isSome_iff_exists.mp (hfound x (by simp))
    simp only [List.cons_append, compileLoop, hx]
    exact ih _ (fun y hy => by
        have hc : ((compileLoop cl device shots maxCredits basisGates couplingMap
          seed [] _).2.circuits) = st.circuits := rfl
        exact hfound y (List.mem_cons_of_mem x hy))
      hm

/-- C1 counterexample: compiling `["a", "b"]` where `a` is catalogued and
`b` is not returns the NotFound-style error, yet the Execution Queue has
changed — the job compiled for `a` stays appended, so the call is not
atomic. -/
theorem claim_C1_counterexample :
    (compile okCollab ["a", "b"] "dev" 1024 3 none none none stC1).1 =
      .error "b not in QuantumProgram" ∧
    (compile okCollab ["a", "b"] "dev" 1024 3 none none none stC1).2.toExecute ≠
      stC1.toExecute := by
  constructor
  · rfl
  · decide

/-- C1 amended: an empty name list fails with the error value and leaves
the state untouched; a list that hits a missing name fails with the
NotFound-style error naming that circuit, but the jobs compiled for the
names found before it remain appended to the target device's queue (the
call is not atomic); the Circuit Catalog, the Last-Used-Device pointer
and the queues of all other devices are untouched. -/
theorem claim_C1_compile_not_atomic :
    (∀ {κ δ σ γ : Type} (cl : Collab κ δ σ γ) (device : String)
      (shots maxCredits : Int) (basisGates : Option String)
      (couplingMap : Option γ) (seed : Option ℚ) (st : ProgState κ σ γ),
      compile cl [] device shots maxCredits basisGates couplingMap seed st =
        (.error "No circuits", st)) ∧
    (∀ {κ δ σ γ : Type} (cl : Collab κ δ σ γ) (found : List String) (m : String)
      (rest : List String) (device : String) (shots maxCredits : Int)
      (basisGates : Option String) (couplingMap : Option γ) (seed : Option ℚ)
      (st : ProgState κ σ γ),
      (∀ x ∈ found, (alookup st.circuits x).isSome) →
      alookup st.circuits m = none →
      compile cl (found ++ m :: rest) device shots maxCredits basisGates
        couplingMap seed st =
        (.error (m ++ " not in QuantumProgram"),
          (compileLoop cl device shots maxCredits basisGates couplingMap seed
            found st).2) ∧
      ((compileLoop cl device shots maxCredits basisGates couplingMap seed
        found st).2.circuits = st.circuits) ∧
      ((compileLoop cl device shots maxCredits basisGates couplingMap seed
        found st).2.lastDevice = st.lastDevice) ∧
      (∀ d, d ≠ device →
        alookup (compileLoop cl device shots maxCredits basisGates couplingMap
          seed found st).2.toExecute d = alookup st.toExecute d)) := by
  constructor
  · intro κ δ σ γ cl device shots maxCredits basisGates couplingMap seed st
    rfl
  · intro κ δ σ γ cl found m rest device shots maxCredits basisGates
      couplingMap seed st hfound hm
    have hne : found ++ m :: rest ≠ [] := by
      intro h
      have := List.append_eq_nil.mp h
      cases this.2
    refine ⟨?_, ?_, ?_, ?_⟩
    · unfold compile
      rw [if_neg hne]
      exact compileLoop_split cl device shots maxCredits basisGates couplingMap
        seed m rest found st hfound hm
    · exact (compileLoop_preserves cl device shots maxCredits basisGates
        couplingMap seed found st).1
    · exact (compileLoop_preserves cl device shots maxCredits basisGates
        couplingMap seed found st).2.1
    · exact (compileLoop_preserves cl device shots maxCredits basisGates
        couplingMap seed found st).2.2

/-- C1 witness: the amended theorem applied to the concrete state
`stC1`. -/
theorem claim_C1_compile_not_atomic_witness :
    compile okCollab [] "dev" 1024 3 none none none stC1 =
      (.error "No circuits", stC1) ∧
    compile okCollab ["a", "b"] "dev" 1024 3 none none none stC1 =
      (.error "b not in QuantumProgram",
        (compileLoop okCollab "dev" 1024 3 none none none ["a"] stC1).2) := by
  constructor
  · exact claim_C1_compile_not_atomic.1 okCollab "dev" 1024 3 none none none stC1
  · exact (claim_C1_compile_not_atomic.2 okCollab ["a"] "b" [] "dev" 1024 3
      none none none stC1 (by decide) (by decide)).1

/-! ### Dispatcher claims (C2, C4) -/

/-- If the continuation clears the queue on every normal return, so does
the backend-finishing step. -/
theorem finishBackend_ret {κ σ γ : Type} {b : String} {jobs : List (Job σ γ)}
    {qs : List QasmResult} {st : ProgState κ σ γ} {r : PyResult}
    {st' : ProgState κ σ γ}
    {k : ProgState κ σ γ → Outcome (PyResult × ProgState κ σ γ)}
    (hk : ∀ st'', k st'' = .ret (r, st') → st'.toExecute = []) :
    finishBackend b jobs qs st k = .ret (r, st') → st'.toExecute = [] := by
  unfold finishBackend
  split
  · intro h; cases h
  · cases hf : fillLoop b st.circuits jobs qs with
    | notFound => intro h; cases h; rfl
    | raise e => intro h; cases h
    | ok cs => intro h; exact hk _ h

/-- Every normal return of the backend-draining loop leaves the Execution
Queue empty. -/
theorem runBackends_ret {κ δ σ γ : Type} (cl : Collab κ δ σ γ) (api : Api)
    (wa tmo fuel : Nat) :
    ∀ (pending : List (String × List (Job σ γ))) (st : ProgState κ σ γ)
      (r : PyResult) (st' : ProgState κ σ γ),
      runBackends cl api wa tmo fuel pending st = .ret (r, st') →
      st'.toExecute = [] := by
  intro pending
  induction pending with
  | nil =>
    intro st r st' h
    unfold runBackends at h
    cases h
    rfl
  | cons bj rest ih =>
    obtain ⟨backend, jobs⟩ := bj
    intro st r st' h
    unfold runBackends at h
    dsimp only at h
    by_cases hon : backend ∈ onlineDevices
    · rw [if_pos hon] at h
      cases hbc : batchCollect jobs [] (-1) (-1) with
      | error msg => rw [hbc] at h; dsimp only at h; cases h; rfl
      | ok t =>
        obtain ⟨qasms, ls, lc⟩ := t
        rw [hbc] at h
        dsimp only at h
        cases hapi : api.runJob qasms backend ls lc with
        | err e => rw [hapi] at h; dsimp only at h; cases h; rfl
        | ok id =>
          rw [hapi] at h
          dsimp only at h
          cases hw : wait_for_job (api.getJob id) wa tmo fuel with
          | none => rw [hw] at h; cases h
          | some p =>
            obtain ⟨po, sl⟩ := p
            rw [hw] at h
            cases po with
            | errDict msg => cases h; rfl
            | payload pl =>
              dsimp only at h
              by_cases hst : pl.status = "Error"
              · rw [if_pos hst] at h; cases h; rfl
              · rw [if_neg hst] at h
                exact finishBackend_ret (fun st'' h' => ih st'' r st' h') h
    · rw [if_neg hon] at h
      by_cases hq : backend = "local_qasm_simulator"
      · rw [if_pos hq] at h
        cases hrl : run_local_qasm_simulator cl jobs
            { st with lastDevice := backend }.rngCtr with
        | error e => rw [hrl] at h; cases h
        | ok p =>
          obtain ⟨qasms, ctr'⟩ := p
          rw [hrl] at h
          dsimp only at h
          exact finishBackend_ret (fun st'' h' => ih st'' r st' h') h
      · rw [if_neg hq] at h
        by_cases hu : backend = "local_unitary_simulator"
        · rw [if_pos hu] at h
          cases hrl : run_local_unitary_simulator cl jobs with
          | error e => rw [hrl] at h; cases h
          | ok qasms =>
            rw [hrl] at h
            dsimp only at h
            exact finishBackend_ret (fun st'' h' => ih st'' r st' h') h
        · rw [if_neg hu] at h
          cases h
          rfl

/-- C2: whenever `run` returns — with success or with any error value —
the Execution Queue of the returned state is empty. -/
theorem claim_C2_queue_cleared {κ δ σ γ : Type} (cl : Collab κ δ σ γ)
    (api : Api) (wa tmo fuel : Nat) (st : ProgState κ σ γ) (r : PyResult)
    (st' : ProgState κ σ γ) :
    run cl api wa tmo fuel st = .ret (r, st') → st'.toExecute = [] :=
  runBackends_ret cl api wa tmo fuel st.toExecute st r st'

/-- C2 witness: the theorem applied to a concrete completed run. -/
theorem claim_C2_queue_cleared_witness :
    run okCollab okApi 1 5 3 st0 = .ret (.completed, st0) ∧
    st0.toExecute = [] := by
  constructor
  · rfl
  · exact claim_C2_queue_cleared okCollab okApi 1 5 3 st0 .completed st0 rfl

/-- A batch in which every job agrees with the recorded non-sentinel (or
sentinel) shots and credits is collected without error. -/
theorem batchCollect_hom {σ γ : Type} :
    ∀ (jobs : List (Job σ γ)) (acc : List String) (s c : Int),
      (∀ j ∈ jobs, j.shots = s ∧ j.max_credits = c) →
      batchCollect jobs acc s c =
        .ok (acc ++ jobs.map (fun j => j.qasm_compiled), s, c) := by
  intro jobs
  induction jobs with
  | nil => intro acc s c _; simp [batchCollect]
  | cons j rest ih =>
    intro acc s c h
    obtain ⟨hs, hc⟩ := h j (List.mem_cons_self j rest)
    have hrest : ∀ x ∈ rest, x.shots = s ∧ x.max_credits = c :=
      fun x hx => h x (List.mem_cons_of_mem j hx)
    simp only [batchCollect, hs, hc, ne_eq, not_true_eq_false, if_false, ite_self]
    rw [ih (acc ++ [j.qasm_compiled]) s c hrest]
    simp

/-- A batch that disagrees with recorded non-sentinel shots or credits is
rejected with one of the two heterogeneity messages. -/
theorem batchCollect_err {σ γ : Type} :
    ∀ (jobs : List (Job σ γ)) (acc : List String) (s c : Int),
      s ≠ -1 → c ≠ -1 →
      ¬(∀ j ∈ jobs, j.shots = s ∧ j.max_credits = c) →
      batchCollect jobs acc s c = .error shotsMsg ∨
      batchCollect jobs acc s c = .error creditsMsg := by
  intro jobs
  induction jobs with
  | nil => intro acc s c _ _ hno; exact absurd (fun j hj => absurd hj (List.not_mem_nil j)) hno
  | cons j rest ih =>
    intro acc s c hs hc hno
    by_cases hjs : j.shots = s
    · by_cases hjc : j.max_credits = c
      · have hrest : ¬(∀ x ∈ rest, x.shots = s ∧ x.max_credits = c) := by
          intro hall
          exact hno (fun x hx => by
            rcases List.mem_cons.mp hx with h1 | h1
            · subst h1; exact ⟨hjs, hjc⟩
            · exact hall x h1)
        have := ih (acc ++ [j.qasm_compiled]) s c hs hc hrest
        simpa [batchCollect, hs, hjs.symm, hjc.symm, hc, ite_self] using this
      · right
        have hne : ¬ c = j.max_credits := fun h => hjc h.symm
        simp [batchCollect, hs, hjs.symm, hc, hne]
    · left
      have hne : ¬ s = j.shots := fun h => hjs h.symm
      simp [batchCollect, hs, hne]

/-- A pairwise-homogeneous batch passes the collection phase. -/
theorem batchCollect_start_hom {σ γ : Type} (jobs : List (Job σ γ)) (s c : Int)
    (h : ∀ j ∈ jobs, j.shots = s ∧ j.max_credits = c) :
    ∃ q ls lc, batchCollect jobs [] (-1) (-1) = .ok (q, ls, lc) := by
  cases jobs with
  | nil => exact ⟨[], -1, -1, rfl⟩
  | cons j rest =>
    have hstep : batchCollect (j :: rest) ([] : List String) (-1) (-1) =
        batchCollect rest [j.qasm_compiled] j.shots j.max_credits := by
      simp [batchCollect]
    have hrest : ∀ x ∈ rest, x.shots = j.shots ∧ x.max_credits = j.max_credits := by
      intro x hx
      obtain ⟨hxs, hxc⟩ := h x (List.mem_cons_of_mem j hx)
      obtain ⟨hjs, hjc⟩ := h j (List.mem_cons_self j rest)
      rw [hxs, hxc, hjs, hjc]
      exact ⟨rfl, rfl⟩
    rw [hstep, batchCollect_hom rest [j.qasm_compiled] j.shots j.max_credits hrest]
    exact ⟨_, _, _, rfl⟩

/-- Any Error dictionary produced by the polling loop carries either the
`Time Out` message or a status string delivered by the status queries. -/
theorem waitLoop_errDict_source (get : Nat → JobPayload) (wa tmo : Nat) :
    ∀ (fuel timer k : Nat) (cur : JobPayload) (sleeps : Nat) (msg : String)
      (sl : Nat),
      waitLoop get wa tmo fuel timer k cur sleeps = some (.errDict msg, sl) →
      msg = "Time Out" ∨ ∃ n, msg = (get n).status := by
  intro fuel
  induction fuel with
  | zero => intro timer k cur sleeps msg sl h; cases h
  | succ fuel ih =>
    intro timer k cur sleeps msg sl h
    unfold waitLoop at h
    by_cases hrun : cur.status = "RUNNING"
    · rw [if_pos hrun] at h
      by_cases htimer : timer = tmo
      · rw [if_pos htimer] at h
        cases h
        exact Or.inl rfl
      · rw [if_neg htimer] at h
        dsimp only at h
        by_cases herr : (get k).status = "ERROR_CREATING_JOB" ∨
            (get k).status = "ERROR_RUNNING_JOB"
        · rw [if_pos herr] at h
          cases h
          exact Or.inr ⟨k, rfl⟩
        · rw [if_neg herr] at h
          exact ih _ _ _ _ msg sl h
    · rw [if_neg hrun] at h
      cases h

/-- C4 counterexample: the queue holds a remote batch with differing
shots (`-1` and `5`), yet `run` completes successfully — the `-1`
sentinel used for `last_shots` makes the heterogeneity check miss a batch
whose first job carries `shots = -1`. -/
theorem claim_C4_counterexample :
    jobM1.shots ≠ jobS5.shots ∧
    stC4.toExecute = [("simulator", [jobM1, jobS5])] ∧
    resultOf (run okCollab okApi 1 5 3 stC4) = some .completed := by
  refine ⟨by decide, rfl, rfl⟩

/-- C4 amended: for a dispatch cycle whose queue holds a single remote
device, provided no sentinel `-1` value is involved in the first job, a
batch with differing `shots` or differing `max_credits` makes `run`
return one of the two batch-heterogeneity errors with the queue cleared;
whenever `run` returns a heterogeneity error the whole queue is empty,
regardless of which device triggered it; and a homogeneous remote batch
is never rejected with a heterogeneity error (as long as the remote API's
own error messages and status strings do not collide with the two
heterogeneity messages). -/
theorem claim_C4_heterogeneity :
    (∀ {κ δ σ γ : Type} (cl : Collab κ δ σ γ) (api : Api) (wa tmo fuel : Nat)
      (st : ProgState κ σ γ) (d : String) (j0 : Job σ γ) (rest : List (Job σ γ)),
      st.toExecute = [(d, j0 :: rest)] → d ∈ onlineDevices →
      j0.shots ≠ -1 → j0.max_credits ≠ -1 →
      ¬(∀ j ∈ rest, j.shots = j0.shots ∧ j.max_credits = j0.max_credits) →
      run cl api wa tmo fuel st =
          .ret (.error shotsMsg, { st with lastDevice := d, toExecute := [] }) ∨
      run cl api wa tmo fuel st =
          .ret (.error creditsMsg, { st with lastDevice := d, toExecute := [] })) ∧
    (∀ {κ δ σ γ : Type} (cl : Collab κ δ σ γ) (api : Api) (wa tmo fuel : Nat)
      (st : ProgState κ σ γ) (r : PyResult) (st' : ProgState κ σ γ),
      run cl api wa tmo fuel st = .ret (r, st') →
      (r = .error shotsMsg ∨ r = .error creditsMsg) → st'.toExecute = []) ∧
    (∀ {κ δ σ γ : Type} (cl : Collab κ δ σ γ) (api : Api) (wa tmo fuel : Nat)
      (st : ProgState κ σ γ) (d : String) (jobs : List (Job σ γ)) (s c : Int),
      st.toExecute = [(d, jobs)] → d ∈ onlineDevices →
      (∀ j ∈ jobs, j.shots = s ∧ j.max_credits = c) →
      (∀ q b ls lc msg, api.runJob q b ls lc = .err msg →
        msg ≠ shotsMsg ∧ msg ≠ creditsMsg) →
      (∀ id n, (api.getJob id n).status ≠ shotsMsg ∧
        (api.getJob id n).status ≠ creditsMsg) →
      ∀ r st', run cl api wa tmo fuel st = .ret (r, st') →
        r ≠ .error shotsMsg ∧ r ≠ .error creditsMsg) := by
  refine ⟨?_, ?_, ?_⟩
  · intro κ δ σ γ cl api wa tmo fuel st d j0 rest hq hon hs hc hno
    have hstep : batchCollect (j0 :: rest) ([] : List String) (-1) (-1) =
        batchCollect rest [j0.qasm_compiled] j0.shots j0.max_credits := by
      simp [batchCollect]
    have := batchCollect_err rest [j0.qasm_compiled] j0.shots j0.max_credits hs hc hno
    unfold run
    rw [hq]
    rcases this with herr | herr
    · left
      unfold runBackends
      rw [if_pos hon, hstep, herr]
    · right
      unfold runBackends
      rw [if_pos hon, hstep, herr]
  · intro κ δ σ γ cl api wa tmo fuel st r st' h _
    exact runBackends_ret cl api wa tmo fuel st.toExecute st r st' h
  · intro κ δ σ γ cl api wa tmo fuel st d jobs s c hq hon hhom hA hG r st' h
    unfold run at h
    rw [hq] at h
    unfold runBackends at h
    rw [if_pos hon] at h
    obtain ⟨qs, ls, lc, hbc⟩ := batchCollect_start_hom jobs s c hhom
    rw [hbc] at h
    dsimp only at h
    cases hapi : api.runJob qs d ls lc with
    | err e =>
      rw [hapi] at h
      dsimp only at h
      cases h
      obtain ⟨h1, h2⟩ := hA qs d ls lc e hapi
      constructor
      · intro hcontra; injection hcontra with h3; exact h1 h3
      · intro hcontra; injection hcontra with h3; exact h2 h3
    | ok id =>
      rw [hapi] at h
      dsimp only at h
      cases hw : wait_for_job (api.getJob id) wa tmo fuel with
      | none => rw [hw] at h; cases h
      | some p =>
        obtain ⟨po, sl⟩ := p
        rw [hw] at h
        cases po with
        | errDict msg =>
          cases h
          have := waitLoop_errDict_source (api.getJob id) wa tmo fuel 0 1
            (api.getJob id 0) 0 msg sl hw
          rcases this with hmsg | ⟨n, hmsg⟩
          · subst hmsg
            refine ⟨fun hcontra => ?_, fun hcontra => ?_⟩ <;>
              [exact absurd hcontra (by decide); exact absurd hcontra (by decide)]
          · subst hmsg
            obtain ⟨h1, h2⟩ := hG id n
            constructor
            · intro hcontra; injection hcontra with h3; exact h1 h3
            · intro hcontra; injection hcontra with h3; exact h2 h3
        | payload pl =>
          dsimp only at h
          by_cases hst : pl.status = "Error"
          · rw [if_pos hst] at h
            cases h
            refine ⟨fun hcontra => ?_, fun hcontra => ?_⟩ <;> cases hcontra
          · rw [if_neg hst] at h
            unfold finishBackend at h
            by_cases hlen : jobs.length ≠ pl.qasms.length
            · rw [if_pos hlen] at h; cases h
            · rw [if_neg hlen] at h
              cases hf : fillLoop d { st with lastDevice := d }.circuits jobs pl.qasms with
              | notFound =>
                rw [hf] at h
                cases h
                exact ⟨by decide, by decide⟩
              | raise e => rw [hf] at h; cases h
              | ok cs =>
                rw [hf] at h
                dsimp only at h
                unfold runBackends at h
                cases h
                exact ⟨by decide, by decide⟩

/-- C4 witness: the amended theorem applied to the heterogeneous batch
`[7, 5]` and (third conjunct) to the homogeneous batch `[5, 5]`. -/
theorem claim_C4_heterogeneity_witness :
    (run okCollab okApi 1 5 3 stC4b =
        .ret (.error shotsMsg, { stC4b with lastDevice := "simulator", toExecute := [] }) ∨
     run okCollab okApi 1 5 3 stC4b =
        .ret (.error creditsMsg, { stC4b with lastDevice := "simulator", toExecute := [] })) ∧
    (PyResult.completed ≠ .error shotsMsg ∧ PyResult.completed ≠ .error creditsMsg) := by
  constructor
  · exact claim_C4_heterogeneity.1 okCollab okApi 1 5 3 stC4b "simulator" jobS7
      [jobS5] rfl (by decide) (by decide) (by decide) (by decide)
  · exact claim_C4_heterogeneity.2.2 okCollab okApi 1 5 3 stC4c "simulator"
      [jobS5, jobS5] 5 3 rfl (by decide) (by decide)
      (fun q b ls lc msg hmsg => by cases hmsg)
      (fun id n => by refine ⟨?_, ?_⟩ <;> simp [okApi, shotsMsg, creditsMsg])
      .completed stC4cFinal (by rfl)

/-! ### Observable averaging (C7) -/

/-- The accumulation loop of `average_data` computes the sum of
`counts[key] * observable[key]` over the keys present in both tables,
divided by `tot` (keys present in only one table contribute nothing). -/
theorem adSum_eq (observable : List (String × ℚ)) (tot : ℚ) :
    ∀ counts : CountsTable,
      adSum counts observable tot =
        (counts.map (fun kv =>
          match alookup observable kv.1 with
          | some w => kv.2 * w
          | none => 0)).sum / tot := by
  have hfold : ∀ (counts : CountsTable) (a : ℚ),
      counts.foldl
        (fun acc kv =>
          match alookup observable kv.1 with
          | some w => acc + kv.2 * w / tot
          | none => acc) a =
      a + (counts.map (fun kv =>
        match alookup observable kv.1 with
        | some w => kv.2 * w / tot
        | none => 0)).sum := by
    intro counts
    induction counts with
    | nil => intro a; simp
    | cons kv rest ih =>
      intro a
      simp only [List.foldl_cons, List.map_cons, List.sum_cons]
      cases alookup observable kv.1 with
      | none => rw [ih]; ring
      | some w => rw [ih]; ring
  intro counts
  unfold adSum
  rw [hfold counts 0, zero_add]
  induction counts with
  | nil => simp
  | cons kv rest ih =>
    simp only [List.map_cons, List.sum_cons]
    rw [ih, add_div]
    congr 1
    cases alookup observable kv.1 with
    | none => simp
    | some w => rfl

/-- C7: `average_data` returns the sum over keys present in both the
stored counts table and the observable of `counts[k] * observable[k]`,
divided by the total of all stored counts; and on the concrete table
`{"00": 3, "11": 7}` with observable `{"00": 1.0, "11": -1.0}` it returns
`-0.4`. -/
theorem claim_C7_average_data :
    (∀ {κ σ γ : Type} (st : ProgState κ σ γ) (name : String)
      (observable : List (String × ℚ)) (counts : CountsTable),
      get_counts st name none = .val counts →
      (counts.map Prod.snd).sum ≠ 0 →
      average_data st name observable =
        .ok ((counts.map (fun kv =>
          match alookup observable kv.1 with
          | some w => kv.2 * w
          | none => 0)).sum / (counts.map Prod.snd).sum)) ∧
    average_data stC7 "c" obsC7 = .ok (-2/5) := by
  constructor
  · intro κ σ γ st name observable counts hc htot
    unfold average_data
    rw [hc]
    dsimp only
    rw [if_neg (by exact fun hand => htot hand.1)]
    rw [adSum_eq]
  · simp [average_data, get_counts, stC7, obsC7, alookup, defaultDevice, adSum]
    norm_num

/-- C7 witness: the general part of the theorem applied to the concrete
state `stC7`. -/
theorem claim_C7_average_data_witness :
    average_data stC7 "c" obsC7 =
      .ok ((([("00", (3 : ℚ)), ("11", 7)].map (fun kv =>
        match alookup obsC7 kv.1 with
        | some w => kv.2 * w
        | none => 0)).sum / ([("00", (3 : ℚ)), ("11", 7)].map Prod.snd).sum)) := by
  exact claim_C7_average_data.1 stC7 "c" obsC7 [("00", 3), ("11", 7)] rfl
    (by simp; norm_num)

/-! ### Result accessor claims (C9) -/

/-- C9 counterexample: `get_data` on an absent circuit name raises
`KeyError` instead of returning an error value, and `get_result` on a
present circuit with an absent device key also raises `KeyError`. -/
theorem claim_C9_counterexample :
    get_data st0 "ghost" none = .raise .keyError ∧
    get_result stC7 "c" (some "nodev") = .raise .keyError := by
  exact ⟨rfl, rfl⟩

/-- C9 amended: all four accessors default an omitted device to the
Last-Used-Device pointer; `get_counts` and `get_compiled_qasm` return
error values for any absent key in their lookup chains (absent circuit
name, absent execution map, absent device key); but `get_result` returns
an error value only for an absent circuit name and raises `KeyError` when
the circuit exists and the execution map or device key is absent, and
`get_data` raises `KeyError` for an absent circuit name and for every
other absent key in its chain (execution map, device key, `data`
section). -/
theorem claim_C9_accessors :
    (∀ {κ σ γ : Type} (st : ProgState κ σ γ) (name : String)
      (dev : Option String), alookup st.circuits name = none →
      get_result st name dev = .err "Circuit not found") ∧
    (∀ {κ σ γ : Type} (st : ProgState κ σ γ) (name : String)
      (dev : Option String) (entry : CircuitEntry κ σ γ),
      alookup st.circuits name = some entry → entry.execution = none →
      get_result st name dev = .raise .keyError) ∧
    (∀ {κ σ γ : Type} (st : ProgState κ σ γ) (name : String)
      (dev : Option String) (entry : CircuitEntry κ σ γ)
      (em : List (String × ExecRecord σ γ)),
      alookup st.circuits name = some entry → entry.execution = some em →
      alookup em (defaultDevice st dev) = none →
      get_result st name dev = .raise .keyError) ∧
    (∀ {κ σ γ : Type} (st : ProgState κ σ γ) (name : String)
      (dev : Option String), alookup st.circuits name = none →
      get_data st name dev = .raise .keyError) ∧
    (∀ {κ σ γ : Type} (st : ProgState κ σ γ) (name : String)
      (dev : Option String) (entry : CircuitEntry κ σ γ),
      alookup st.circuits name = some entry → entry.execution = none →
      get_data st name dev = .raise .keyError) ∧
    (∀ {κ σ γ : Type} (st : ProgState κ σ γ) (name : String)
      (dev : Option String) (entry : CircuitEntry κ σ γ)
      (em : List (String × ExecRecord σ γ)),
      alookup st.circuits name = some entry → entry.execution = some em →
      alookup em (defaultDevice st dev) = none →
      get_data st name dev = .raise .keyError) ∧
    (∀ {κ σ γ : Type} (st : ProgState κ σ γ) (name : String)
      (dev : Option String) (entry : CircuitEntry κ σ γ)
      (em : List (String × ExecRecord σ γ)) (record : ExecRecord σ γ)
      (rd : ResultData),
      alookup st.circuits name = some entry → entry.execution = some em →
      alookup em (defaultDevice st dev) = some record →
      record.result = some rd → rd.data = none →
      get_data st name dev = .raise .keyError) ∧
    (∀ {κ σ γ : Type} (st : ProgState κ σ γ) (name : String)
      (dev : Option String), alookup st.circuits name = none →
      get_counts st name dev = .err "Error in circuit name") ∧
    (∀ {κ σ γ : Type} (st : ProgState κ σ γ) (name : String)
      (dev : Option String) (entry : CircuitEntry κ σ γ),
      alookup st.circuits name = some entry → entry.execution = none →
      get_counts st name dev = .err "Error in circuit name") ∧
    (∀ {κ σ γ : Type} (st : ProgState κ σ γ) (name : String)
      (dev : Option String) (entry : CircuitEntry κ σ γ)
      (em : List (String × ExecRecord σ γ)),
      alookup st.circuits name = some entry → entry.execution = some em →
      alookup em (defaultDevice st dev) = none →
      get_counts st name dev = .err "Error in circuit name") ∧
    (∀ {κ σ γ : Type} (st : ProgState κ σ γ) (name : String)
      (dev : Option String), alookup st.circuits name = none →
      get_compiled_qasm st name dev = .err "No compiled qasm for this circuit") ∧
    (∀ {κ σ γ : Type} (st : ProgState κ σ γ) (name : String)
      (dev : Option String) (entry : CircuitEntry κ σ γ),
      alookup st.circuits name = some entry → entry.execution = none →
      get_compiled_qasm st name dev = .err "No compiled qasm for this circuit") ∧
    (∀ {κ σ γ : Type} (st : ProgState κ σ γ) (name : String)
      (dev : Option String) (entry : CircuitEntry κ σ γ)
      (em : List (String × ExecRecord σ γ)),
      alookup st.circuits name = some entry → entry.execution = some em →
      alookup em (defaultDevice st dev) = none →
      get_compiled_qasm st name dev = .err "No compiled qasm for this circuit") ∧
    (∀ {κ σ γ : Type} (st : ProgState κ σ γ) (name : String),
      get_result st name none = get_result st name (some st.lastDevice) ∧
      get_data st name none = get_data st name (some st.lastDevice) ∧
      get_counts st name none = get_counts st name (some st.lastDevice) ∧
      get_compiled_qasm st name none =
        get_compiled_qasm st name (some st.lastDevice)) := by
  have hdev : ∀ {κ σ γ : Type} (st : ProgState κ σ γ),
      defaultDevice st none = defaultDevice st (some st.lastDevice) := by
    intro κ σ γ st
    unfold defaultDevice
    dsimp only
    by_cases h : st.lastDevice = ""
    · rw [if_pos h]
    · rw [if_neg h]
  refine ⟨?_, ?_, ?_, ?_, ?_, ?_, ?_, ?_, ?_, ?_, ?_, ?_, ?_, ?_⟩
  · intro κ σ γ st name dev h
    unfold get_result
    rw [h]
  · intro κ σ γ st name dev entry h1 h2
    unfold get_result
    rw [h1]
    dsimp only
    rw [h2]
  · intro κ σ γ st name dev entry em h1 h2 h3
    unfold get_result
    rw [h1]
    dsimp only
    rw [h2]
    dsimp only
    rw [h3]
  · intro κ σ γ st name dev h
    unfold get_data
    rw [h]
  · intro κ σ γ st name dev entry h1 h2
    unfold get_data
    rw [h1]
    dsimp only
    rw [h2]
  · intro κ σ γ st name dev entry em h1 h2 h3
    unfold get_data
    rw [h1]
    dsimp only
    rw [h2]
    dsimp only
    rw [h3]
  · intro κ σ γ st name dev entry em record rd h1 h2 h3 h4 h5
    unfold get_data
    rw [h1]
    dsimp only
    rw [h2]
    dsimp only
    rw [h3]
    dsimp only
    rw [h4]
    dsimp only
    rw [h5]
  · intro κ σ γ st name dev h
    unfold get_counts
    rw [h]
  · intro κ σ γ st name dev entry h1 h2
    unfold get_counts
    rw [h1]
    dsimp only
    rw [h2]
  · intro κ σ γ st name dev entry em h1 h2 h3
    unfold get_counts
    rw [h1]
    dsimp only
    rw [h2]
    dsimp only
    rw [h3]
  · intro κ σ γ st name dev h
    unfold get_compiled_qasm
    rw [h]
  · intro κ σ γ st name dev entry h1 h2
    unfold get_compiled_qasm
    rw [h1]
    dsimp only
    rw [h2]
  · intro κ σ γ st name dev entry em h1 h2 h3
    unfold get_compiled_qasm
    rw [h1]
    dsimp only
    rw [h2]
    dsimp only
    rw [h3]
  · intro κ σ γ st name
    refine ⟨?_, ?_, ?_, ?_⟩
    · unfold get_result; rw [hdev st]
    · unfold get_data; rw [hdev st]
    · unfold get_counts; rw [hdev st]
    · unfold get_compiled_qasm; rw [hdev st]

/-- C9 witness: the amended theorem applied to concrete states — absent
circuit names for all four accessors, and an absent device key for
`get_data` (raising) and `get_compiled_qasm` (error value). -/
theorem claim_C9_accessors_witness :
    get_result st0 "ghost" none = .err "Circuit not found" ∧
    get_counts st0 "ghost" none = .err "Error in circuit name" ∧
    get_compiled_qasm st0 "ghost" none = .err "No compiled qasm for this circuit" ∧
    get_data st0 "ghost" none = .raise .keyError ∧
    get_data stC7 "c" (some "nodev") = .raise .keyError ∧
    get_compiled_qasm stC7 "c" (some "nodev") =
      .err "No compiled qasm for this circuit" ∧
    get_result stC7 "c" none = get_result stC7 "c" (some stC7.lastDevice) := by
  obtain ⟨t1, t2, t3, t4, t5, t6, t7, t8, t9, t10, t11, t12, t13, t14⟩ :=
    claim_C9_accessors
  refine ⟨?_, ?_, ?_, ?_, ?_, ?_, ?_⟩
  · exact t1 st0 "ghost" none rfl
  · exact t8 st0 "ghost" none rfl
  · exact t11 st0 "ghost" none rfl
  · exact t4 st0 "ghost" none rfl
  · exact t6 stC7 "c" (some "nodev") _ _ rfl rfl rfl
  · exact t13 stC7 "c" (some "nodev") _ _ rfl rfl rfl
  · exact (t14 stC7 "c").1

/-! ### `_remove_identity` (C10) -/

/-- The loop of `_remove_identity` computes, for any starting
accumulators, the sum of identity coefficients and the ordered list of
non-identity terms. -/
theorem riLoop_eq :
    ∀ (l : List PauliTerm) (c : ℚ) (ops : List PauliTerm),
      riLoop l c ops =
        (c + ((l.filter (fun t => !isNonId t)).map PauliTerm.coeff).sum,
          ops ++ l.filter isNonId) := by
  intro l
  induction l with
  | nil => intro c ops; simp [riLoop]
  | cons op rest ih =>
    intro c ops
    unfold riLoop
    by_cases h : isNonId op
    · rw [if_pos h, ih, List.filter_cons, List.filter_cons,
        if_pos h, if_neg (by simp [h])]
      simp [List.append_assoc]
    · rw [if_neg h, ih, List.filter_cons, List.filter_cons,
        if_neg h, if_pos (by simp [h])]
      simp only [List.map_cons, List.sum_cons]
      rw [Prod.mk.injEq]
      exact ⟨by ring, rfl⟩

theorem sumCoeffOf_cons (t : PauliTerm) (l : List PauliTerm) (p : PauliPrim) :
    sumCoeffOf (t :: l) p =
      (if t.primitive = p then t.coeff else 0) + sumCoeffOf l p := by
  unfold sumCoeffOf
  by_cases h : t.primitive = p
  · rw [if_pos h, List.filter_cons, if_pos (by simpa using h)]
    simp
  · rw [if_neg h, List.filter_cons, if_neg (by simpa using h)]
    simp

/-- The coefficient map of a term list splits over the
identity/non-identity partition. -/
theorem sumCoeffOf_partition :
    ∀ (l : List PauliTerm) (p : PauliPrim),
      sumCoeffOf l p =
        sumCoeffOf (l.filter isNonId) p +
        sumCoeffOf (l.filter (fun t => !isNonId t)) p := by
  intro l
  induction l with
  | nil => intro p; simp [sumCoeffOf]
  | cons t rest ih =>
    intro p
    rw [sumCoeffOf_cons, List.filter_cons, List.filter_cons]
    by_cases h : isNonId t
    · rw [if_pos h, if_neg (show ¬((!isNonId t) = true) by rw [h]; decide),
        sumCoeffOf_cons, ih]
      ring
    · have hf : isNonId t = false := by revert h; cases isNonId t <;> simp
      rw [if_neg (show ¬(isNonId t = true) by rw [hf]; decide),
        if_pos (show (!isNonId t) = true by rw [hf]; decide),
        sumCoeffOf_cons, ih]
      ring

/-- A primitive of arity `n` has no X and no Z component iff it is the
`n`-qubit identity primitive. -/
theorem isNonId_false_iff (pr : PauliPrim) (n : Nat)
    (hx : pr.x.length = n) (hz : pr.z.length = n) :
    (pr.x.any id || pr.z.any id) = false ↔ pr = idPrim n := by
  obtain ⟨px, pz⟩ := pr
  simp only at hx hz
  unfold idPrim
  rw [Bool.or_eq_false_iff, PauliPrim.mk.injEq]
  constructor
  · rintro ⟨h1, h2⟩
    constructor
    · exact List.eq_replicate_iff.mpr ⟨hx, fun b hb => by
        have := List.any_eq_false.mp h1 b hb
        simpa using this⟩
    · exact List.eq_replicate_iff.mpr ⟨hz, fun b hb => by
        have := List.any_eq_false.mp h2 b hb
        simpa using this⟩
  · rintro ⟨h1, h2⟩
    subst h1; subst h2
    constructor
    · exact List.any_eq_false.mpr (fun b hb => by
        have := List.eq_of_mem_replicate hb
        simp [this])
    · exact List.any_eq_false.mpr (fun b hb => by
        have := List.eq_of_mem_replicate hb
        simp [this])

/-- C10: `_remove_identity` returns the sum of the coefficients of
exactly the identity terms (0 when there are none) and, in their original
order, exactly the non-identity terms; and, as coefficient maps, the
input sum equals the returned identity coefficient times the identity
plus the returned rest. -/
theorem claim_C10_remove_identity (l : List PauliTerm) (n : Nat)
    (harity : ∀ t ∈ l, t.primitive.x.length = n ∧ t.primitive.z.length = n) :
    (remove_identity l).1 =
      ((l.filter (fun t => !isNonId t)).map PauliTerm.coeff).sum ∧
    (remove_identity l).2 = l.filter isNonId ∧
    ∀ p : PauliPrim, sumCoeffOf l p =
      (if p = idPrim n then (remove_identity l).1 else 0) +
        sumCoeffOf (remove_identity l).2 p := by
  have hri : remove_identity l =
      (((l.filter (fun t => !isNonId t)).map PauliTerm.coeff).sum,
        l.filter isNonId) := by
    unfold remove_identity
    rw [riLoop_eq]
    simp
  refine ⟨by rw [hri], by rw [hri], ?_⟩
  intro p
  rw [hri]
  dsimp only
  rw [sumCoeffOf_partition l p, add_comm]
  congr 1
  by_cases hp : p = idPrim n
  · rw [if_pos hp]
    subst hp
    unfold sumCoeffOf
    rw [List.filter_eq_self.mpr]
    intro t ht
    have htl : t ∈ l := (List.mem_filter.mp ht).1
    have hid : isNonId t = false := by
      have := (List.mem_filter.mp ht).2
      simpa using this
    obtain ⟨hx, hz⟩ := harity t htl
    have := (isNonId_false_iff t.primitive n hx hz).mp (by
      unfold isNonId at hid; exact hid)
    simpa using this
  · rw [if_neg hp]
    unfold sumCoeffOf
    rw [List.filter_eq_nil_iff.mpr]
    · simp
    · intro t ht
      have htl : t ∈ l := (List.mem_filter.mp ht).1
      have hid : isNonId t = false := by
        have := (List.mem_filter.mp ht).2
        simpa using this
      obtain ⟨hx, hz⟩ := harity t htl
      have hprim := (isNonId_false_iff t.primitive n hx hz).mp (by
        unfold isNonId at hid; exact hid)
      simp only [decide_eq_true_eq]
      rw [hprim]
      exact fun h => hp h.symm

/-- C10 witness: the theorem applied to the concrete two-term Pauli
sum. -/
theorem claim_C10_remove_identity_witness :
    (remove_identity plC10).1 =
      ((plC10.filter (fun t => !isNonId t)).map PauliTerm.coeff).sum ∧
    (remove_identity plC10).2 = plC10.filter isNonId := by
  have := claim_C10_remove_identity plC10 2 (by decide)
  exact ⟨this.1, this.2.1⟩

end QP
